import Mathlib

/-!
# A shallow embedding of the `interperf` bytecode interpreters

This file models the stack-machine interpreters of the repository:

* `wordcode.c` — switch dispatch, two-word frames (saved bp, saved ip), all
  functions of arity 1 (the CALL handler pops the single argument and pushes
  it back on top of the new frame); locals live at `bp + 2 + i`.
* `handlercode2.c` / `directthreaded2.c` — three-word frames (saved bp,
  saved ip, argument count); CALL copies the `argc` argument words above the
  control words; locals live at `bp + 3 + i`.  The two files share the same
  per-instruction semantics and the same bytecode; they differ only in how
  dispatch is realized (handler pointers + longjmp vs. computed goto), which
  a shallow embedding cannot distinguish.
* `directthreaded3.c`, `directthreaded4.c`, `comboinstructions.c` — three-word
  frames, arguments are not copied: the callee reads them through negative
  offsets from its bp.  `directthreaded4.c` adds the CONST_0/1/2 opcodes and
  `comboinstructions.c` additionally the SUB1 combo opcode.  The three files
  share one engine (modelled by `stepDT`); each is the engine restricted to
  its own code array.

Modelling conventions:

* a machine word (`word_t`, `uint64_t`) is a `Nat`; arithmetic that the C
  performs on `int64_t` is modelled through `sVal` (two's-complement signed
  reading of a word) and `wrap` (reduction of an integer back to a word);
* the value stack is an unbounded memory `Nat → Nat` plus the `sp` index,
  because the C stack accesses are not bounds checked (see `push`);
* code addresses stored on the stack (the saved instruction pointer) are
  modelled as `index + 1` (`ipStore`), because the C stores the pointer
  `NULL` (numerically 0) as the "no caller" sentinel and every real code
  address is distinct from it;
* an out-of-bounds table access or a wild jump is undefined behavior in the
  C sources; the model makes this visible as the distinct outcome `Out.ub`,
  while the explicit `abort()` in the default branch of `wordcode.c`'s
  switch is the outcome `Out.abort`.
-/

namespace Interp

/-- 2^64, the number of machine words. -/
def TWO64 : Nat := 18446744073709551616

/-- 2^63, the first word whose signed reading is negative. -/
def TWO63 : Nat := 9223372036854775808

/-- Signed (two's-complement `int64_t`) reading of a machine word. -/
def sVal (w : Nat) : Int :=
  if w % TWO64 < TWO63 then ((w % TWO64 : Nat) : Int)
  else ((w % TWO64 : Nat) : Int) - (TWO64 : Int)

/-- Reduce an integer to the machine word with the same two's-complement bits. -/
def wrap (i : Int) : Nat := (i % (TWO64 : Int)).toNat

/-- Interpreter state: the three registers of `struct interpreter` and the
value-stack memory.  `ip` and `bp`/`sp` are indices into the code vector and
the stack array respectively (the C uses raw pointers). -/
structure St where
  ip : Nat
  sp : Nat
  bp : Nat
  mem : Nat → Nat

/-- Result of executing one instruction. -/
inductive Out where
  | next : St → Out
  | halt : Nat → Out
  | abort : Out
  | ub : Out

/-- Result of running the dispatch loop for a bounded number of steps. -/
inductive Res where
  | running : St → Res
  | done : Nat → Res
  | aborted : Res
  | stuck : Res

/-- Write one cell of the stack memory. -/
def wr (m : Nat → Nat) (a v : Nat) : Nat → Nat :=
  fun x => if x = a then v else m x

/-- The `push` of every variant: `*sp++ = value`, with no bounds check
against `STACK_SIZE` (the memory of the model is unbounded, exactly because
the C does not check). -/
def push (v : Nat) (s : St) : St :=
  { s with sp := s.sp + 1, mem := wr s.mem s.sp v }

/-- Stack encoding of a saved instruction pointer: the C stores the pointer
value, whose null sentinel is 0; the model stores the code index plus one so
that 0 keeps meaning "no caller". -/
def ipStore (ip : Nat) : Nat := ip + 1

/-- The fixed capacity of the value stack array in every variant. -/
def STACK_SIZE : Nat := 1024

/-- The literal table, identical in all variants. -/
def literals : List Nat := [2, 1]

/-- Opcode tag of LIT (enum value in `wordcode.c`; the threaded variants use
the corresponding handler address, modelled by the same tag). -/
def LIT : Nat := 0

/-- Opcode tag of LOAD. -/
def LOAD : Nat := 1

/-- Opcode tag of CALL. -/
def CALL : Nat := 2

/-- Opcode tag of PRIM. -/
def PRIM : Nat := 3

/-- Opcode tag of JT. -/
def JT : Nat := 4

/-- Opcode tag of JMP. -/
def JMP : Nat := 5

/-- Opcode tag of RET. -/
def RET : Nat := 6

/-- Opcode tag of CONST_0 (`directthreaded4.c`, `comboinstructions.c`). -/
def CONST_0 : Nat := 7

/-- Opcode tag of CONST_1. -/
def CONST_1 : Nat := 8

/-- Opcode tag of CONST_2. -/
def CONST_2 : Nat := 9

/-- Opcode tag of the SUB1 combo instruction (`comboinstructions.c`). -/
def SUB1 : Nat := 10

/-- The word holding the operand -1 of the LOAD instructions in the
direct-threaded variants. -/
def M1 : Nat := TWO64 - 1

/-- Result of the three primitives (`lessThan`, `subtract`, `add`), all
binary on signed words; id 0/1/2 as in `prim_handlers`. -/
def primResult (i lhs rhs : Nat) : Nat :=
  if i = 0 then (if sVal lhs < sVal rhs then 1 else 0)
  else if i = 1 then wrap (sVal lhs - sVal rhs)
  else wrap (sVal lhs + sVal rhs)

/-- LIT handler: fetch the literal id, push `literals[id]`.  An id outside
the literal table is an unchecked out-of-bounds read in the C. -/
def doLit (code : List Nat) (s : St) : Out :=
  if code.length ≤ s.ip + 1 then .ub else
  if code.getD (s.ip + 1) 0 < literals.length then
    .next { push (literals.getD (code.getD (s.ip + 1) 0) 0) s with ip := s.ip + 2 }
  else .ub

/-- PRIM handler: fetch the primitive id and apply the primitive, which pops
its two operands and pushes one result.  An id outside `prim_handlers` is an
unchecked out-of-bounds read (and wild call) in the C. -/
def doPrim (code : List Nat) (s : St) : Out :=
  if code.length ≤ s.ip + 1 then .ub else
  if code.getD (s.ip + 1) 0 < 3 then
    if s.sp < 2 then .ub else
    .next ⟨s.ip + 2, s.sp - 1, s.bp,
      wr s.mem (s.sp - 2) (primResult (code.getD (s.ip + 1) 0) (s.mem (s.sp - 2)) (s.mem (s.sp - 1)))⟩
  else .ub

/-- JT handler: fetch the offset, pop the condition; if it is truthy set
`ip = ip + offset - 2` (ip already advanced past opcode and operand). -/
def doJt (code : List Nat) (s : St) : Out :=
  if code.length ≤ s.ip + 1 then .ub else
  if s.sp < 1 then .ub else
  if s.mem (s.sp - 1) = 0 then .next ⟨s.ip + 2, s.sp - 1, s.bp, s.mem⟩
  else
    if 0 ≤ (s.ip + 2 : Int) + sVal (code.getD (s.ip + 1) 0) - 2 then
      .next ⟨((s.ip + 2 : Int) + sVal (code.getD (s.ip + 1) 0) - 2).toNat, s.sp - 1, s.bp, s.mem⟩
    else .ub

/-- JMP handler: unconditional variant of `doJt`. -/
def doJmp (code : List Nat) (s : St) : Out :=
  if code.length ≤ s.ip + 1 then .ub else
  if 0 ≤ (s.ip + 2 : Int) + sVal (code.getD (s.ip + 1) 0) - 2 then
    .next ⟨((s.ip + 2 : Int) + sVal (code.getD (s.ip + 1) 0) - 2).toNat, s.sp, s.bp, s.mem⟩
  else .ub

/-- The three-word `push_frame` of `handlercode2.c` (inlined verbatim in the
direct-threaded variants): remember the old bp, set `bp = sp`, then push the
old bp, the current ip and the argument count to discard on return. -/
def push_frame3 (argc : Nat) (s : St) : St :=
  push argc (push (ipStore s.ip) (push s.bp { s with bp := s.sp }))

/-- The three-word `pop_frame` / RET of `handlercode2.c` and the
direct-threaded variants: pop the result, reset `sp = bp + 3`, pop the
argument count, saved ip and saved bp, discard the argument words, and
either halt (null saved ip) or push the result back for the caller. -/
def doRet3 (s : St) : Out :=
  if s.sp < 1 then .ub else
  if s.bp < s.mem (s.bp + 2) then .ub else
  if s.mem (s.bp + 1) = 0 then .halt (s.mem (s.sp - 1))
  else
    .next ⟨s.mem (s.bp + 1) - 1, (s.bp - s.mem (s.bp + 2)) + 1, s.mem s.bp,
      wr s.mem (s.bp - s.mem (s.bp + 2)) (s.mem (s.sp - 1))⟩

/-- The two-word `push_frame` of `wordcode.c`: set `bp = sp`, push the old bp
and the current ip — no argument count is recorded. -/
def wc_push_frame (s : St) : St :=
  push (ipStore s.ip) (push s.bp { s with bp := s.sp })

/-- The two-word `pop_frame` of `wordcode.c`: reset `sp = bp + 2` and pop the
saved ip and saved bp (the final sp is the old bp). -/
def wc_pop_frame (s : St) : St :=
  ⟨s.mem (s.bp + 1), s.bp, s.mem s.bp, s.mem⟩

/-- RET of `wordcode.c`: pop the result, pop the two-word frame, halt if the
restored ip is the null sentinel, otherwise push the result back. -/
def wcRet (s : St) : Out :=
  if s.sp < 1 then .ub else
  if (wc_pop_frame s).ip = 0 then .halt (s.mem (s.sp - 1))
  else
    .next { push (s.mem (s.sp - 1)) { wc_pop_frame s with ip := (wc_pop_frame s).ip - 1 } with
      ip := (wc_pop_frame s).ip - 1 }

/-- LOAD of `wordcode.c`: push the local at `bp + 2 + index`. -/
def wcLoad (code : List Nat) (s : St) : Out :=
  if code.length ≤ s.ip + 1 then .ub else
  .next { push (s.mem (s.bp + 2 + code.getD (s.ip + 1) 0)) s with ip := s.ip + 2 }

/-- CALL of `wordcode.c`: fetch the function id (the table has the single
entry `fib`), pop the one argument, push the two-word frame, push the
argument back as local 0 and jump to the function entry (index 0). -/
def wcCall (code : List Nat) (s : St) : Out :=
  if code.length ≤ s.ip + 1 then .ub else
  if code.getD (s.ip + 1) 0 < 1 then
    if s.sp < 1 then .ub else
    .next { push (s.mem (s.sp - 1)) (wc_push_frame { s with ip := s.ip + 2, sp := s.sp - 1 }) with
      ip := 0 }
  else .ub

/-- LOAD of `handlercode2.c`/`directthreaded2.c`: push the local at
`bp + 3 + index`. -/
def hc2Load (code : List Nat) (s : St) : Out :=
  if code.length ≤ s.ip + 1 then .ub else
  .next { push (s.mem (s.bp + 3 + code.getD (s.ip + 1) 0)) s with ip := s.ip + 2 }

/-- Copy `argc` words from `src` to `dst` (the `memcpy` of `execute_call`;
the two regions are disjoint because the frame was pushed above the
arguments). -/
def copyWords (src dst : Nat) : Nat → (Nat → Nat) → (Nat → Nat)
  | 0, m => m
  | j + 1, m => wr (copyWords src dst j m) (dst + j) (m (src + j))

/-- CALL of `handlercode2.c`/`directthreaded2.c`: fetch function id and
argument count, push the three-word frame, copy the `argc` argument words
into the new frame and reserve `frame_size` (= 1 for `fib`) local slots. -/
def hc2Call (code : List Nat) (s : St) : Out :=
  if code.length ≤ s.ip + 2 then .ub else
  if code.getD (s.ip + 1) 0 < 1 then
    if s.sp < code.getD (s.ip + 2) 0 then .ub else
    .next { push_frame3 (code.getD (s.ip + 2) 0) { s with ip := s.ip + 3 } with
      ip := 0,
      sp := s.sp + 3 + 1,
      mem := copyWords (s.sp - code.getD (s.ip + 2) 0) (s.sp + 3) (code.getD (s.ip + 2) 0)
        (push_frame3 (code.getD (s.ip + 2) 0) { s with ip := s.ip + 3 }).mem }
  else .ub

/-- LOAD of the `directthreaded3.c` family: the operand is a signed offset
relative to bp (negative offsets reach the caller-owned arguments). -/
def dtLoad (code : List Nat) (s : St) : Out :=
  if code.length ≤ s.ip + 1 then .ub else
  if 0 ≤ (s.bp : Int) + sVal (code.getD (s.ip + 1) 0) then
    .next { push (s.mem ((s.bp : Int) + sVal (code.getD (s.ip + 1) 0)).toNat) s with
      ip := s.ip + 2 }
  else .ub

/-- CALL of the `directthreaded3.c` family: like `hc2Call` but the arguments
are not copied (the callee frame sits directly on top of them) and
`frame_size` is 0. -/
def dtCall (code : List Nat) (s : St) : Out :=
  if code.length ≤ s.ip + 2 then .ub else
  if code.getD (s.ip + 1) 0 < 1 then
    .next { push_frame3 (code.getD (s.ip + 2) 0) { s with ip := s.ip + 3 } with ip := 0 }
  else .ub

/-- CONST_k handler: push the inlined constant. -/
def doConst (k : Nat) (s : St) : Out :=
  .next { push k s with ip := s.ip + 1 }

/-- SUB1 combo handler of `comboinstructions.c`: decrement the word on top of
the stack in place. -/
def dtSub1 (s : St) : Out :=
  if s.sp < 1 then .ub else
  .next { s with ip := s.ip + 1, mem := wr s.mem (s.sp - 1) (wrap (sVal (s.mem (s.sp - 1)) - 1)) }

/-- One instruction of `wordcode.c`'s `execute`: fetch the opcode tag and
switch on it; a tag outside the enum hits the `default:` branch, which
prints an error and calls `abort()`. -/
def stepWC (code : List Nat) (s : St) : Out :=
  if code.length ≤ s.ip then .ub else
  if code.getD s.ip 0 = LIT then doLit code s
  else if code.getD s.ip 0 = LOAD then wcLoad code s
  else if code.getD s.ip 0 = CALL then wcCall code s
  else if code.getD s.ip 0 = PRIM then doPrim code s
  else if code.getD s.ip 0 = JT then doJt code s
  else if code.getD s.ip 0 = JMP then doJmp code s
  else if code.getD s.ip 0 = RET then wcRet s
  else .abort

/-- One instruction of `handlercode2.c`/`directthreaded2.c`: the code word is
a handler pointer, so a word that is no handler is a wild call (undefined
behavior), not a detected error. -/
def stepHC2 (code : List Nat) (s : St) : Out :=
  if code.length ≤ s.ip then .ub else
  if code.getD s.ip 0 = LIT then doLit code s
  else if code.getD s.ip 0 = LOAD then hc2Load code s
  else if code.getD s.ip 0 = CALL then hc2Call code s
  else if code.getD s.ip 0 = PRIM then doPrim code s
  else if code.getD s.ip 0 = JT then doJt code s
  else if code.getD s.ip 0 = JMP then doJmp code s
  else if code.getD s.ip 0 = RET then doRet3 s
  else .ub

/-- One instruction of the `directthreaded3.c` family engine: the union of
the label-addressable handlers of `directthreaded3.c`, `directthreaded4.c`
and `comboinstructions.c`; each variant is this engine restricted to its own
code array (a code word that is no label is undefined behavior). -/
def stepDT (code : List Nat) (s : St) : Out :=
  if code.length ≤ s.ip then .ub else
  if code.getD s.ip 0 = LIT then doLit code s
  else if code.getD s.ip 0 = LOAD then dtLoad code s
  else if code.getD s.ip 0 = CALL then dtCall code s
  else if code.getD s.ip 0 = PRIM then doPrim code s
  else if code.getD s.ip 0 = JT then doJt code s
  else if code.getD s.ip 0 = JMP then doJmp code s
  else if code.getD s.ip 0 = RET then doRet3 s
  else if code.getD s.ip 0 = CONST_0 then doConst 0 s
  else if code.getD s.ip 0 = CONST_1 then doConst 1 s
  else if code.getD s.ip 0 = CONST_2 then doConst 2 s
  else if code.getD s.ip 0 = SUB1 then dtSub1 s
  else .ub

/-- Run the dispatch loop for at most `k` instructions. -/
def run (f : St → Out) : Nat → St → Res
  | 0, s => .running s
  | k + 1, s =>
    match f s with
    | .next s' => run f k s'
    | .halt w => .done w
    | .abort => .aborted
    | .ub => .stuck

/-- `s'` is reachable from `s` in finitely many instructions. -/
def Reaches (f : St → Out) (s s' : St) : Prop :=
  ∃ k, run f k s = .running s'

/-- The dispatch loop started at `s` terminates normally with result `w`
(the outermost RET was reached). -/
def Executes (f : St → Out) (s : St) (w : Nat) : Prop :=
  ∃ k, run f k s = .done w

/-- `fib_code` of `wordcode.c`. -/
def wcFib : List Nat :=
  [LOAD, 0, LIT, 0, PRIM, 0, JT, 22, LOAD, 0, LIT, 1, PRIM, 1, CALL, 0,
   LOAD, 0, LIT, 0, PRIM, 1, CALL, 0, PRIM, 2, JMP, 4, LIT, 1, RET]

/-- `fib_code` of `handlercode2.c` and `directthreaded2.c` (identical). -/
def hc2Fib : List Nat :=
  [LOAD, 0, LIT, 0, PRIM, 0, JT, 24, LOAD, 0, LIT, 1, PRIM, 1, CALL, 0, 1,
   LOAD, 0, LIT, 0, PRIM, 1, CALL, 0, 1, PRIM, 2, JMP, 4, LIT, 1, RET]

/-- `fib_code` of `directthreaded3.c`. -/
def dt3Fib : List Nat :=
  [LOAD, M1, LIT, 0, PRIM, 0, JT, 24, LOAD, M1, LIT, 1, PRIM, 1, CALL, 0, 1,
   LOAD, M1, LIT, 0, PRIM, 1, CALL, 0, 1, PRIM, 2, JMP, 4, LIT, 1, RET]

/-- `fib_code` of `directthreaded4.c`. -/
def dt4Fib : List Nat :=
  [LOAD, M1, CONST_2, PRIM, 0, JT, 22, LOAD, M1, CONST_1, PRIM, 1, CALL, 0, 1,
   LOAD, M1, CONST_2, PRIM, 1, CALL, 0, 1, PRIM, 2, JMP, 3, CONST_1, RET]

/-- `fib_code` of `comboinstructions.c` (after the combo rewriting). -/
def comboFib : List Nat :=
  [LOAD, M1, CONST_2, PRIM, 0, JT, 19, LOAD, M1, SUB1, CALL, 0, 1,
   LOAD, M1, SUB1, SUB1, CALL, 0, 1, PRIM, 2, JMP, 3, CONST_1, RET]

/-- Initial state of `wordcode.c`'s `main`: bp = sp = stack base, push the
null saved bp, the null saved ip and the argument; `m` is whatever the
process-wide stack array held before. -/
def wcInit (arg : Nat) (m : Nat → Nat) : St :=
  push arg (push 0 (push 0 ⟨0, 0, 0, m⟩))

/-- Initial state of `handlercode2.c`/`directthreaded2.c`: additionally
pushes the argument-count word 0 of the synthetic outermost frame. -/
def hc2Init (arg : Nat) (m : Nat → Nat) : St :=
  push arg (push 0 (push 0 (push 0 ⟨0, 0, 0, m⟩)))

/-- Initial state of the `directthreaded3.c` family: the argument sits below
the synthetic frame and bp points just above it (`stack + 1`). -/
def dtInit (arg : Nat) (m : Nat → Nat) : St :=
  { push 0 (push 0 (push 0 (push arg ⟨0, 0, 0, m⟩))) with bp := 1 }

/-- Fuel-indexed Fibonacci recursion with machine arithmetic: the value the
interpreted `fib` manipulates, `1` when the signed argument is below 2 and
otherwise the wrapped sum of the two recursive values. -/
def fibA : Nat → Nat → Nat
  | 0, _ => 1
  | fuel + 1, n =>
    if sVal n < 2 then 1
    else wrap (sVal (fibA fuel (wrap (sVal n - 1))) + sVal (fibA fuel (wrap (sVal n - 2))))

/-- The function computed by the built-in `fib` bytecode on a machine word:
`f(n) = 1 if n < 2 else f(n-1) + f(n-2)` in two's-complement 64-bit signed
arithmetic (`fuel = n % 2^64` always suffices, see `fibA_congr`). -/
def fibW (n : Nat) : Nat := fibA (n % TWO64) n

/-- Number of code words an instruction with the given opcode tag occupies
(opcode plus immediate operands). -/
def instrWidth (t : Nat) : Nat :=
  if t = LIT then 2
  else if t = LOAD then 2
  else if t = CALL then 3
  else if t = PRIM then 2
  else if t = JT then 2
  else if t = JMP then 2
  else 1

/-- Modelled from the spec: one entry of the fusion pattern table of §4.4 —
a source opcode/operand word sequence and the combo words replacing it.  The
source has no `fuse` function; `comboinstructions.c` only contains the
already fused program, so the pass itself is modelled from the spec's
description (data-driven peephole table, offsets recomputed). -/
structure ComboPattern where
  src : List Nat
  dst : List Nat

/-- Modelled from the spec: the pattern table realizing the SUB1 combo of
`comboinstructions.c` — `CONST_1; PRIM subtract` becomes `SUB1`, and
`CONST_2; PRIM subtract` becomes `SUB1; SUB1`. -/
def comboPatterns : List ComboPattern :=
  [⟨[CONST_1, PRIM, 1], [SUB1]⟩, ⟨[CONST_2, PRIM, 1], [SUB1, SUB1]⟩]

/-- Modelled from the spec: the first pattern whose source words (opcode tags
and operand values) match the front of the remaining code. -/
def matchPattern (ws : List Nat) : Option ComboPattern :=
  comboPatterns.find? (fun p => ws.take p.src.length = p.src)

/-- Modelled from the spec: scan the instruction stream, producing for each
instruction (or fused group) the number of old code words it spanned and the
new code words emitted for it; unmatched instructions pass through. -/
def fuseSegs : Nat → List Nat → List (Nat × List Nat)
  | 0, _ => []
  | _ + 1, [] => []
  | fuel + 1, t :: rest =>
    match matchPattern (t :: rest) with
    | some p => (p.src.length, p.dst) :: fuseSegs fuel ((t :: rest).drop p.src.length)
    | none => (instrWidth t, (t :: rest).take (instrWidth t)) :: fuseSegs fuel ((t :: rest).drop (instrWidth t))

/-- Modelled from the spec: the map from old instruction-start addresses to
new addresses induced by the scan. -/
def addrPairs : List (Nat × List Nat) → Nat → Nat → List (Nat × Nat)
  | [], _, _ => []
  | (w, ws) :: rest, o, n => (o, n) :: addrPairs rest (o + w) (n + ws.length)

/-- Modelled from the spec: look an old address up in the address map
(identity outside the map). -/
def mapAddr (ps : List (Nat × Nat)) (a : Nat) : Nat :=
  ((ps.find? (fun p => p.fst = a)).map Prod.snd).getD a

/-- Modelled from the spec: emit the scanned segments, recomputing every
relative jump offset whose meaning the rewriting changed: the old target is
`old start + offset`, the new offset is `new target - new start`. -/
def emitSegs (ps : List (Nat × Nat)) : List (Nat × List Nat) → Nat → Nat → List Nat
  | [], _, _ => []
  | (w, ws) :: rest, o, n =>
    (match ws with
     | [t, off] =>
       if t = JT ∨ t = JMP then
         [t, wrap ((mapAddr ps (wrap ((o : Int) + sVal off)) : Int) - (n : Int))]
       else ws
     | _ => ws) ++ emitSegs ps rest (o + w) (n + ws.length)

/-- Modelled from the spec: the fusion pass `fuse(program) -> program'` of
§4.4 — a pure peephole rewriting by the pattern table followed by jump
offset recomputation. -/
def fuse (code : List Nat) : List Nat :=
  emitSegs (addrPairs (fuseSegs code.length code) 0 0) (fuseSegs code.length code) 0 0

/-! ## Lemmas about the dispatch loop -/

theorem run_step {f : St → Out} {s s' : St} (h : f s = .next s') (k : Nat) :
    run f (k + 1) s = run f k s' := by
  simp [run, h]

theorem reaches_rfl (f : St → Out) (s : St) : Reaches f s s := ⟨0, rfl⟩

theorem reaches_head {f : St → Out} {s s₁ s₂ : St} (h : f s = .next s₁)
    (h2 : Reaches f s₁ s₂) : Reaches f s s₂ := by
  obtain ⟨k, hk⟩ := h2
  exact ⟨k + 1, by rw [run_step h]; exact hk⟩

theorem run_add (f : St → Out) (a b : Nat) (s : St) :
    run f (a + b) s =
      match run f a s with
      | .running s' => run f b s'
      | r => r := by
  induction a generalizing s with
  | zero => simp [run]
  | succ a ih =>
    have hab : a + 1 + b = (a + b) + 1 := by omega
    rw [hab]
    cases h : f s with
    | next s' => rw [run_step h, run_step h, ih]
    | halt w => simp [run, h]
    | abort => simp [run, h]
    | ub => simp [run, h]

theorem reaches_trans {f : St → Out} {s₁ s₂ s₃ : St} (h1 : Reaches f s₁ s₂)
    (h2 : Reaches f s₂ s₃) : Reaches f s₁ s₃ := by
  obtain ⟨a, ha⟩ := h1
  obtain ⟨b, hb⟩ := h2
  exact ⟨a + b, by rw [run_add, ha]; exact hb⟩

theorem executes_of_reaches {f : St → Out} {s s' : St} {w : Nat}
    (h1 : Reaches f s s') (h2 : Executes f s' w) : Executes f s w := by
  obtain ⟨a, ha⟩ := h1
  obtain ⟨b, hb⟩ := h2
  exact ⟨a + b, by rw [run_add, ha]; exact hb⟩

theorem executes_halt {f : St → Out} {s : St} {w : Nat} (h : f s = .halt w) :
    Executes f s w := ⟨1, by simp [run, h]⟩

theorem run_done_stable {f : St → Out} {s : St} {w : Nat} {k : Nat}
    (h : run f k s = .done w) (j : Nat) : run f (k + j) s = .done w := by
  rw [run_add, h]

theorem executes_unique {f : St → Out} {s : St} {w₁ w₂ : Nat}
    (h1 : Executes f s w₁) (h2 : Executes f s w₂) : w₁ = w₂ := by
  obtain ⟨a, ha⟩ := h1
  obtain ⟨b, hb⟩ := h2
  have e1 := run_done_stable ha b
  have e2 := run_done_stable hb a
  rw [Nat.add_comm b a] at e2
  rw [e1] at e2
  cases e2
  rfl

/-! ## Lemmas about machine arithmetic and the fib specification -/

theorem two63_lt_two64 : TWO63 < TWO64 := by decide

theorem mod_two64_lt (n : Nat) : n % TWO64 < TWO64 :=
  Nat.mod_lt _ (by decide)

theorem sVal_small {w : Nat} (h : w < TWO63) : sVal w = w := by
  have hlt : w < TWO64 := lt_trans h two63_lt_two64
  have hm : w % TWO64 = w := Nat.mod_eq_of_lt hlt
  simp [sVal, hm, h]

theorem sVal_ge2 {n : Nat} (h : 2 ≤ sVal n) :
    2 ≤ n % TWO64 ∧ n % TWO64 < TWO63 ∧ sVal n = ((n % TWO64 : Nat) : Int) := by
  by_cases hc : n % TWO64 < TWO63
  · refine ⟨?_, hc, by simp [sVal, hc]⟩
    simp only [sVal, if_pos hc] at h
    exact_mod_cast h
  · exfalso
    have hlt : n % TWO64 < TWO64 := mod_two64_lt n
    simp only [sVal, if_neg hc] at h
    simp only [TWO64] at h hlt
    omega

theorem wrap_of_small {i : Int} (h0 : 0 ≤ i) (h1 : i < (TWO64 : Int)) :
    wrap i = i.toNat := by
  simp [wrap, Int.emod_eq_of_lt h0 h1]

theorem wrap_sval_sub_one {n : Nat} (h : 2 ≤ sVal n) :
    wrap (sVal n - 1) = n % TWO64 - 1 := by
  obtain ⟨h2, hlt, hsv⟩ := sVal_ge2 h
  rw [hsv]
  have hm := mod_two64_lt n
  have h0 : (0 : Int) ≤ ((n % TWO64 : Nat) : Int) - 1 := by omega
  have h1 : ((n % TWO64 : Nat) : Int) - 1 < (TWO64 : Int) := by
    have : ((n % TWO64 : Nat) : Int) < (TWO64 : Int) := by exact_mod_cast hm
    omega
  rw [wrap_of_small h0 h1]
  omega

theorem wrap_sval_sub_two {n : Nat} (h : 2 ≤ sVal n) :
    wrap (sVal n - 2) = n % TWO64 - 2 := by
  obtain ⟨h2, hlt, hsv⟩ := sVal_ge2 h
  rw [hsv]
  have hm := mod_two64_lt n
  have h0 : (0 : Int) ≤ ((n % TWO64 : Nat) : Int) - 2 := by omega
  have h1 : ((n % TWO64 : Nat) : Int) - 2 < (TWO64 : Int) := by
    have : ((n % TWO64 : Nat) : Int) < (TWO64 : Int) := by exact_mod_cast hm
    omega
  rw [wrap_of_small h0 h1]
  omega

theorem sval_zero_of_mod {n : Nat} (h : n % TWO64 = 0) : sVal n = 0 := by
  simp [sVal, h, TWO63]

theorem wrap_sub_one_sub_one {n : Nat} (h : 2 ≤ sVal n) :
    wrap (sVal (wrap (sVal n - 1)) - 1) = wrap (sVal n - 2) := by
  obtain ⟨g1, g2, g3⟩ := sVal_ge2 h
  rw [wrap_sval_sub_one h, wrap_sval_sub_two h, sVal_small (by omega)]
  have e : ((n % TWO64 - 1 : Nat) : Int) - 1 = ((n % TWO64 - 2 : Nat) : Int) := by omega
  have hlt : ((n % TWO64 - 2 : Nat) : Int) < (TWO64 : Int) := by
    have := mod_two64_lt n
    exact_mod_cast (by omega : n % TWO64 - 2 < TWO64)
  rw [e, wrap_of_small (by omega) hlt]
  omega

theorem fibA_congr : ∀ f g n : Nat, n % TWO64 ≤ f → n % TWO64 ≤ g →
    fibA f n = fibA g n := by
  intro f
  induction f with
  | zero =>
    intro g n hf _
    have h0 : n % TWO64 = 0 := by omega
    have hs : sVal n < 2 := by rw [sval_zero_of_mod h0]; decide
    cases g with
    | zero => rfl
    | succ g => simp [fibA, hs]
  | succ f ih =>
    intro g n hf hg
    cases g with
    | zero =>
      have h0 : n % TWO64 = 0 := by omega
      have hs : sVal n < 2 := by rw [sval_zero_of_mod h0]; decide
      simp [fibA, hs]
    | succ g =>
      by_cases hs : sVal n < 2
      · simp [fibA, hs]
      · have h2 : 2 ≤ sVal n := by omega
        obtain ⟨hm2, hmlt, hsv⟩ := sVal_ge2 h2
        have e1 : wrap (sVal n - 1) % TWO64 = n % TWO64 - 1 := by
          rw [wrap_sval_sub_one h2]
          exact Nat.mod_eq_of_lt (by have := mod_two64_lt n; omega)
        have e2 : wrap (sVal n - 2) % TWO64 = n % TWO64 - 2 := by
          rw [wrap_sval_sub_two h2]
          exact Nat.mod_eq_of_lt (by have := mod_two64_lt n; omega)
        simp only [fibA, if_neg hs]
        rw [ih g (wrap (sVal n - 1)) (by rw [e1]; omega) (by rw [e1]; omega),
          ih g (wrap (sVal n - 2)) (by rw [e2]; omega) (by rw [e2]; omega)]

theorem fibW_base {n : Nat} (h : sVal n < 2) : fibW n = 1 := by
  unfold fibW
  cases hm : n % TWO64 with
  | zero => rfl
  | succ k => simp [fibA, h]

theorem fibW_rec {n : Nat} (h : 2 ≤ sVal n) :
    fibW n = wrap (sVal (fibW (wrap (sVal n - 1))) + sVal (fibW (wrap (sVal n - 2)))) := by
  obtain ⟨hm2, hmlt, hsv⟩ := sVal_ge2 h
  have e1 : wrap (sVal n - 1) % TWO64 = n % TWO64 - 1 := by
    rw [wrap_sval_sub_one h]
    exact Nat.mod_eq_of_lt (by have := mod_two64_lt n; omega)
  have e2 : wrap (sVal n - 2) % TWO64 = n % TWO64 - 2 := by
    rw [wrap_sval_sub_two h]
    exact Nat.mod_eq_of_lt (by have := mod_two64_lt n; omega)
  obtain ⟨k, hk⟩ : ∃ k, n % TWO64 = k + 1 := ⟨n % TWO64 - 1, by omega⟩
  unfold fibW
  rw [hk]
  simp only [fibA, if_neg (not_lt.2 h)]
  rw [fibA_congr k (wrap (sVal n - 1) % TWO64) (wrap (sVal n - 1)) (by rw [e1]; omega)
      (le_refl _),
    fibA_congr k (wrap (sVal n - 2) % TWO64) (wrap (sVal n - 2)) (by rw [e2]; omega)
      (le_refl _)]

theorem sVal_one : sVal 1 = 1 := by decide

theorem sVal_two : sVal 2 = 2 := by decide

theorem sVal_M1 : sVal M1 = -1 := by decide

/-! ## Single-instruction lemmas: the handlers -/

theorem doLit_eq {code : List Nat} {s : St} {i : Nat}
    (hlen : s.ip + 1 < code.length) (harg : code.getD (s.ip + 1) 0 = i) (hi : i < 2) :
    doLit code s = .next ⟨s.ip + 2, s.sp + 1, s.bp, wr s.mem s.sp (literals.getD i 0)⟩ := by
  simp only [doLit, harg, push]
  rw [if_neg (Nat.not_le.2 hlen), if_pos (by simpa [literals] using hi)]

theorem doPrim_eq {code : List Nat} {s : St} {i : Nat}
    (hlen : s.ip + 1 < code.length) (harg : code.getD (s.ip + 1) 0 = i) (hi : i < 3)
    (hsp : 2 ≤ s.sp) :
    doPrim code s = .next ⟨s.ip + 2, s.sp - 1, s.bp,
      wr s.mem (s.sp - 2) (primResult i (s.mem (s.sp - 2)) (s.mem (s.sp - 1)))⟩ := by
  simp only [doPrim, harg]
  rw [if_neg (Nat.not_le.2 hlen), if_pos hi, if_neg (Nat.not_lt.2 hsp)]

theorem doJt_false_eq {code : List Nat} {s : St}
    (hlen : s.ip + 1 < code.length) (hsp : 1 ≤ s.sp) (hc : s.mem (s.sp - 1) = 0) :
    doJt code s = .next ⟨s.ip + 2, s.sp - 1, s.bp, s.mem⟩ := by
  simp only [doJt]
  rw [if_neg (Nat.not_le.2 hlen), if_neg (Nat.not_lt.2 hsp), if_pos hc]

theorem doJt_true_eq {code : List Nat} {s : St} {o t : Nat}
    (hlen : s.ip + 1 < code.length) (hsp : 1 ≤ s.sp)
    (harg : code.getD (s.ip + 1) 0 = o) (hc : s.mem (s.sp - 1) ≠ 0)
    (ht : (s.ip : Int) + 2 + sVal o - 2 = (t : Int)) :
    doJt code s = .next ⟨t, s.sp - 1, s.bp, s.mem⟩ := by
  simp only [doJt, harg]
  rw [if_neg (Nat.not_le.2 hlen), if_neg (Nat.not_lt.2 hsp), if_neg hc, ht,
    if_pos (Int.natCast_nonneg t)]
  simp

theorem doJmp_eq {code : List Nat} {s : St} {o t : Nat}
    (hlen : s.ip + 1 < code.length)
    (harg : code.getD (s.ip + 1) 0 = o)
    (ht : (s.ip : Int) + 2 + sVal o - 2 = (t : Int)) :
    doJmp code s = .next ⟨t, s.sp, s.bp, s.mem⟩ := by
  simp only [doJmp, harg]
  rw [if_neg (Nat.not_le.2 hlen), ht, if_pos (Int.natCast_nonneg t)]
  simp

theorem doRet3_next_eq {s : St} {a i p : Nat}
    (hsp : 1 ≤ s.sp) (hargc : s.mem (s.bp + 2) = a) (ha : a ≤ s.bp)
    (hip : s.mem (s.bp + 1) = i + 1) (hbp : s.mem s.bp = p) :
    doRet3 s = .next ⟨i, (s.bp - a) + 1, p, wr s.mem (s.bp - a) (s.mem (s.sp - 1))⟩ := by
  simp only [doRet3, hargc, hip, hbp]
  rw [if_neg (Nat.not_lt.2 hsp), if_neg (Nat.not_lt.2 ha), if_neg (by omega)]
  simp

theorem doRet3_halt_eq {s : St}
    (hsp : 1 ≤ s.sp) (ha : s.mem (s.bp + 2) ≤ s.bp) (hip : s.mem (s.bp + 1) = 0) :
    doRet3 s = .halt (s.mem (s.sp - 1)) := by
  simp only [doRet3, hip]
  rw [if_neg (Nat.not_lt.2 hsp), if_neg (Nat.not_lt.2 ha), if_pos trivial]

theorem wcRet_next_eq {s : St} {i p : Nat} (hsp : 1 ≤ s.sp)
    (hip : s.mem (s.bp + 1) = i + 1) (hbp : s.mem s.bp = p) :
    wcRet s = .next ⟨i, s.bp + 1, p, wr s.mem s.bp (s.mem (s.sp - 1))⟩ := by
  simp only [wcRet, wc_pop_frame, hip, hbp]
  rw [if_neg (Nat.not_lt.2 hsp), if_neg (by omega)]
  simp [push]

theorem wcRet_halt_eq {s : St} (hsp : 1 ≤ s.sp) (hip : s.mem (s.bp + 1) = 0) :
    wcRet s = .halt (s.mem (s.sp - 1)) := by
  simp only [wcRet, wc_pop_frame, hip]
  rw [if_neg (Nat.not_lt.2 hsp), if_pos trivial]

theorem wcLoad_eq {code : List Nat} {s : St} {i : Nat}
    (hlen : s.ip + 1 < code.length) (harg : code.getD (s.ip + 1) 0 = i) :
    wcLoad code s = .next ⟨s.ip + 2, s.sp + 1, s.bp, wr s.mem s.sp (s.mem (s.bp + 2 + i))⟩ := by
  simp only [wcLoad, harg, push]
  rw [if_neg (Nat.not_le.2 hlen)]

theorem hc2Load_eq {code : List Nat} {s : St} {i : Nat}
    (hlen : s.ip + 1 < code.length) (harg : code.getD (s.ip + 1) 0 = i) :
    hc2Load code s = .next ⟨s.ip + 2, s.sp + 1, s.bp, wr s.mem s.sp (s.mem (s.bp + 3 + i))⟩ := by
  simp only [hc2Load, harg, push]
  rw [if_neg (Nat.not_le.2 hlen)]

theorem dtLoad_eq {code : List Nat} {s : St} {o a : Nat}
    (hlen : s.ip + 1 < code.length) (harg : code.getD (s.ip + 1) 0 = o)
    (ha : (s.bp : Int) + sVal o = (a : Int)) :
    dtLoad code s = .next ⟨s.ip + 2, s.sp + 1, s.bp, wr s.mem s.sp (s.mem a)⟩ := by
  simp only [dtLoad, harg, push]
  rw [if_neg (Nat.not_le.2 hlen), ha, if_pos (Int.natCast_nonneg a)]
  simp

theorem wcCall_eq {code : List Nat} {s : St}
    (hlen : s.ip + 1 < code.length) (harg : code.getD (s.ip + 1) 0 = 0) (hsp : 1 ≤ s.sp) :
    wcCall code s = .next ⟨0, (s.sp - 1) + 3, s.sp - 1,
      wr (wr (wr s.mem (s.sp - 1) s.bp) ((s.sp - 1) + 1) (ipStore (s.ip + 2)))
        ((s.sp - 1) + 2) (s.mem (s.sp - 1))⟩ := by
  simp only [wcCall, harg, wc_push_frame, push]
  rw [if_neg (Nat.not_le.2 hlen), if_pos (by omega), if_neg (Nat.not_lt.2 hsp)]

theorem hc2Call_eq {code : List Nat} {s : St}
    (hlen : s.ip + 2 < code.length) (harg : code.getD (s.ip + 1) 0 = 0)
    (hargc : code.getD (s.ip + 2) 0 = 1) (hsp : 1 ≤ s.sp) :
    hc2Call code s = .next ⟨0, s.sp + 4, s.sp,
      wr (wr (wr (wr s.mem s.sp s.bp) (s.sp + 1) (ipStore (s.ip + 3))) (s.sp + 2) 1)
        (s.sp + 3)
        (wr (wr (wr s.mem s.sp s.bp) (s.sp + 1) (ipStore (s.ip + 3))) (s.sp + 2) 1
          (s.sp - 1))⟩ := by
  simp only [hc2Call, harg, hargc, push_frame3, push, copyWords]
  rw [if_neg (Nat.not_le.2 hlen), if_pos (by omega), if_neg (Nat.not_lt.2 hsp)]
  rfl

theorem dtCall_eq {code : List Nat} {s : St} {a : Nat}
    (hlen : s.ip + 2 < code.length) (harg : code.getD (s.ip + 1) 0 = 0)
    (hargc : code.getD (s.ip + 2) 0 = a) :
    dtCall code s = .next ⟨0, s.sp + 3, s.sp,
      wr (wr (wr s.mem s.sp s.bp) (s.sp + 1) (ipStore (s.ip + 3))) (s.sp + 2) a⟩ := by
  simp only [dtCall, harg, hargc, push_frame3, push]
  rw [if_neg (Nat.not_le.2 hlen), if_pos (by omega)]

theorem doConst_eq {s : St} {k : Nat} :
    doConst k s = .next ⟨s.ip + 1, s.sp + 1, s.bp, wr s.mem s.sp k⟩ := rfl

theorem dtSub1_eq {s : St} (hsp : 1 ≤ s.sp) :
    dtSub1 s = .next ⟨s.ip + 1, s.sp, s.bp,
      wr s.mem (s.sp - 1) (wrap (sVal (s.mem (s.sp - 1)) - 1))⟩ := by
  simp only [dtSub1]
  rw [if_neg (Nat.not_lt.2 hsp)]

/-! ## Single-instruction lemmas: dispatch -/

theorem stepWC_lit {code : List Nat} {s : St}
    (hlen : s.ip < code.length) (hop : code.getD s.ip 0 = LIT) :
    stepWC code s = doLit code s := by
  simp only [stepWC, hop]
  rw [if_neg (Nat.not_le.2 hlen)]
  rfl

theorem stepWC_load {code : List Nat} {s : St}
    (hlen : s.ip < code.length) (hop : code.getD s.ip 0 = LOAD) :
    stepWC code s = wcLoad code s := by
  simp only [stepWC, hop]
  rw [if_neg (Nat.not_le.2 hlen)]
  rfl

theorem stepWC_call {code : List Nat} {s : St}
    (hlen : s.ip < code.length) (hop : code.getD s.ip 0 = CALL) :
    stepWC code s = wcCall code s := by
  simp only [stepWC, hop]
  rw [if_neg (Nat.not_le.2 hlen)]
  rfl

theorem stepWC_prim {code : List Nat} {s : St}
    (hlen : s.ip < code.length) (hop : code.getD s.ip 0 = PRIM) :
    stepWC code s = doPrim code s := by
  simp only [stepWC, hop]
  rw [if_neg (Nat.not_le.2 hlen)]
  rfl

theorem stepWC_jt {code : List Nat} {s : St}
    (hlen : s.ip < code.length) (hop : code.getD s.ip 0 = JT) :
    stepWC code s = doJt code s := by
  simp only [stepWC, hop]
  rw [if_neg (Nat.not_le.2 hlen)]
  rfl

theorem stepWC_jmp {code : List Nat} {s : St}
    (hlen : s.ip < code.length) (hop : code.getD s.ip 0 = JMP) :
    stepWC code s = doJmp code s := by
  simp only [stepWC, hop]
  rw [if_neg (Nat.not_le.2 hlen)]
  rfl

theorem stepWC_ret {code : List Nat} {s : St}
    (hlen : s.ip < code.length) (hop : code.getD s.ip 0 = RET) :
    stepWC code s = wcRet s := by
  simp only [stepWC, hop]
  rw [if_neg (Nat.not_le.2 hlen)]
  rfl

theorem stepHC2_lit {code : List Nat} {s : St}
    (hlen : s.ip < code.length) (hop : code.getD s.ip 0 = LIT) :
    stepHC2 code s = doLit code s := by
  simp only [stepHC2, hop]
  rw [if_neg (Nat.not_le.2 hlen)]
  rfl

theorem stepHC2_load {code : List Nat} {s : St}
    (hlen : s.ip < code.length) (hop : code.getD s.ip 0 = LOAD) :
    stepHC2 code s = hc2Load code s := by
  simp only [stepHC2, hop]
  rw [if_neg (Nat.not_le.2 hlen)]
  rfl

theorem stepHC2_call {code : List Nat} {s : St}
    (hlen : s.ip < code.length) (hop : code.getD s.ip 0 = CALL) :
    stepHC2 code s = hc2Call code s := by
  simp only [stepHC2, hop]
  rw [if_neg (Nat.not_le.2 hlen)]
  rfl

theorem stepHC2_prim {code : List Nat} {s : St}
    (hlen : s.ip < code.length) (hop : code.getD s.ip 0 = PRIM) :
    stepHC2 code s = doPrim code s := by
  simp only [stepHC2, hop]
  rw [if_neg (Nat.not_le.2 hlen)]
  rfl

theorem stepHC2_jt {code : List Nat} {s : St}
    (hlen : s.ip < code.length) (hop : code.getD s.ip 0 = JT) :
    stepHC2 code s = doJt code s := by
  simp only [stepHC2, hop]
  rw [if_neg (Nat.not_le.2 hlen)]
  rfl

theorem stepHC2_jmp {code : List Nat} {s : St}
    (hlen : s.ip < code.length) (hop : code.getD s.ip 0 = JMP) :
    stepHC2 code s = doJmp code s := by
  simp only [stepHC2, hop]
  rw [if_neg (Nat.not_le.2 hlen)]
  rfl

theorem stepHC2_ret {code : List Nat} {s : St}
    (hlen : s.ip < code.length) (hop : code.getD s.ip 0 = RET) :
    stepHC2 code s = doRet3 s := by
  simp only [stepHC2, hop]
  rw [if_neg (Nat.not_le.2 hlen)]
  rfl

theorem stepDT_lit {code : List Nat} {s : St}
    (hlen : s.ip < code.length) (hop : code.getD s.ip 0 = LIT) :
    stepDT code s = doLit code s := by
  simp only [stepDT, hop]
  rw [if_neg (Nat.not_le.2 hlen)]
  rfl

theorem stepDT_load {code : List Nat} {s : St}
    (hlen : s.ip < code.length) (hop : code.getD s.ip 0 = LOAD) :
    stepDT code s = dtLoad code s := by
  simp only [stepDT, hop]
  rw [if_neg (Nat.not_le.2 hlen)]
  rfl

theorem stepDT_call {code : List Nat} {s : St}
    (hlen : s.ip < code.length) (hop : code.getD s.ip 0 = CALL) :
    stepDT code s = dtCall code s := by
  simp only [stepDT, hop]
  rw [if_neg (Nat.not_le.2 hlen)]
  rfl

theorem stepDT_prim {code : List Nat} {s : St}
    (hlen : s.ip < code.length) (hop : code.getD s.ip 0 = PRIM) :
    stepDT code s = doPrim code s := by
  simp only [stepDT, hop]
  rw [if_neg (Nat.not_le.2 hlen)]
  rfl

theorem stepDT_jt {code : List Nat} {s : St}
    (hlen : s.ip < code.length) (hop : code.getD s.ip 0 = JT) :
    stepDT code s = doJt code s := by
  simp only [stepDT, hop]
  rw [if_neg (Nat.not_le.2 hlen)]
  rfl

theorem stepDT_jmp {code : List Nat} {s : St}
    (hlen : s.ip < code.length) (hop : code.getD s.ip 0 = JMP) :
    stepDT code s = doJmp code s := by
  simp only [stepDT, hop]
  rw [if_neg (Nat.not_le.2 hlen)]
  rfl

theorem stepDT_ret {code : List Nat} {s : St}
    (hlen : s.ip < code.length) (hop : code.getD s.ip 0 = RET) :
    stepDT code s = doRet3 s := by
  simp only [stepDT, hop]
  rw [if_neg (Nat.not_le.2 hlen)]
  rfl

theorem stepDT_const1 {code : List Nat} {s : St}
    (hlen : s.ip < code.length) (hop : code.getD s.ip 0 = CONST_1) :
    stepDT code s = doConst 1 s := by
  simp only [stepDT, hop]
  rw [if_neg (Nat.not_le.2 hlen)]
  rfl

theorem stepDT_const2 {code : List Nat} {s : St}
    (hlen : s.ip < code.length) (hop : code.getD s.ip 0 = CONST_2) :
    stepDT code s = doConst 2 s := by
  simp only [stepDT, hop]
  rw [if_neg (Nat.not_le.2 hlen)]
  rfl

theorem stepDT_sub1 {code : List Nat} {s : St}
    (hlen : s.ip < code.length) (hop : code.getD s.ip 0 = SUB1) :
    stepDT code s = dtSub1 s := by
  simp only [stepDT, hop]
  rw [if_neg (Nat.not_le.2 hlen)]
  rfl

/-! ## The interpreted `fib` body, `wordcode.c`

From the state just after a CALL into `fib` (entry at code index 0, frame at
`b` with the argument in local slot `b + 2`, `sp = b + 3`), execution reaches
the RET at index 30 with the value `fibW` of the argument on top and the
stack below the frame's local untouched. -/

theorem wc_body : ∀ N n b m, n % TWO64 < N → m (b + 2) = n →
    ∃ m', Reaches (stepWC wcFib) ⟨0, b + 3, b, m⟩ ⟨30, b + 4, b, m'⟩ ∧
      m' (b + 3) = fibW n ∧ ∀ x, x < b + 3 → m' x = m x := by
  intro N
  induction N with
  | zero => exact fun n b m hN _ => absurd hN (Nat.not_lt_zero _)
  | succ N ih =>
    intro n b m hN hm
    subst hm
    obtain ⟨m1, s1, v1, f1⟩ :
        ∃ mm, stepWC wcFib ⟨0, b + 3, b, m⟩ = .next ⟨2, b + 4, b, mm⟩ ∧
          mm (b + 3) = m (b + 2) ∧ ∀ x, x < b + 3 → mm x = m x :=
      ⟨_, (stepWC_load (show (0:Nat) < wcFib.length by decide)
            (show wcFib.getD 0 0 = LOAD by decide)).trans
          (wcLoad_eq (show (1:Nat) < wcFib.length by decide)
            (show wcFib.getD 1 0 = 0 by decide)),
        by simp [wr], fun x hx => by simp [wr, show x ≠ b + 3 from by omega]⟩
    obtain ⟨m2, s2, v2a, v2b, f2⟩ :
        ∃ mm, stepWC wcFib ⟨2, b + 4, b, m1⟩ = .next ⟨4, b + 5, b, mm⟩ ∧
          mm (b + 3) = m (b + 2) ∧ mm (b + 4) = 2 ∧ ∀ x, x < b + 3 → mm x = m x :=
      ⟨_, (stepWC_lit (show (2:Nat) < wcFib.length by decide)
            (show wcFib.getD 2 0 = LIT by decide)).trans
          (doLit_eq (show (3:Nat) < wcFib.length by decide)
            (show wcFib.getD 3 0 = 0 by decide) (by decide)),
        by simp [wr]; exact v1, by simp [wr, literals],
        fun x hx => by simp [wr, show x ≠ b + 4 from by omega, f1 x hx]⟩
    obtain ⟨m3, s3, v3, f3⟩ :
        ∃ mm, stepWC wcFib ⟨4, b + 5, b, m2⟩ = .next ⟨6, b + 4, b, mm⟩ ∧
          mm (b + 3) = (if sVal (m (b + 2)) < 2 then 1 else 0) ∧
          ∀ x, x < b + 3 → mm x = m x :=
      ⟨_, (stepWC_prim (show (4:Nat) < wcFib.length by decide)
            (show wcFib.getD 4 0 = PRIM by decide)).trans
          (doPrim_eq (show (5:Nat) < wcFib.length by decide)
            (show wcFib.getD 5 0 = 0 by decide) (by decide) (show (2:Nat) ≤ b + 5 by omega)),
        by simp [wr]; rw [v2a, v2b]; simp [primResult, sVal_two],
        fun x hx => by simp [wr, show x ≠ b + 3 from by omega, f2 x hx]⟩
    by_cases hb : sVal (m (b + 2)) < 2
    · -- base path: JT taken to the LIT 1 at index 28
      have hv3 : m3 (b + 3) = 1 := by rw [v3, if_pos hb]
      have s4 : stepWC wcFib ⟨6, b + 4, b, m3⟩ = .next ⟨28, b + 3, b, m3⟩ :=
        (stepWC_jt (show (6:Nat) < wcFib.length by decide)
            (show wcFib.getD 6 0 = JT by decide)).trans
          (doJt_true_eq (show (7:Nat) < wcFib.length by decide)
            (show (1:Nat) ≤ b + 4 by omega) (show wcFib.getD 7 0 = 22 by decide)
            (show m3 (b + 3) ≠ 0 by simp [hv3])
            (show ((6:Nat) : Int) + 2 + sVal 22 - 2 = ((28:Nat) : Int) by decide))
      obtain ⟨m4, s5, v5, f5⟩ :
          ∃ mm, stepWC wcFib ⟨28, b + 3, b, m3⟩ = .next ⟨30, b + 4, b, mm⟩ ∧
            mm (b + 3) = 1 ∧ ∀ x, x < b + 3 → mm x = m x :=
        ⟨_, (stepWC_lit (show (28:Nat) < wcFib.length by decide)
              (show wcFib.getD 28 0 = LIT by decide)).trans
            (doLit_eq (show (29:Nat) < wcFib.length by decide)
              (show wcFib.getD 29 0 = 1 by decide) (by decide)),
          by simp [wr, literals],
          fun x hx => by simp [wr, show x ≠ b + 3 from by omega, f3 x hx]⟩
      refine ⟨m4, ?_, ?_, f5⟩
      · exact reaches_head s1 (reaches_head s2 (reaches_head s3 (reaches_head s4
          (reaches_head s5 (reaches_rfl _ _)))))
      · rw [v5, fibW_base hb]
    · -- recursive path: JT falls through, two recursive calls, PRIM add, JMP
      have hb2 : 2 ≤ sVal (m (b + 2)) := not_lt.1 hb
      obtain ⟨g1, g2, g3⟩ := sVal_ge2 hb2
      have hmod := mod_two64_lt (m (b + 2))
      have w1eq : wrap (sVal (m (b + 2)) - 1) = m (b + 2) % TWO64 - 1 := wrap_sval_sub_one hb2
      have w2eq : wrap (sVal (m (b + 2)) - 2) = m (b + 2) % TWO64 - 2 := wrap_sval_sub_two hb2
      have hmes1 : wrap (sVal (m (b + 2)) - 1) % TWO64 < N := by
        rw [w1eq, Nat.mod_eq_of_lt (by omega)]; omega
      have hmes2 : wrap (sVal (m (b + 2)) - 2) % TWO64 < N := by
        rw [w2eq, Nat.mod_eq_of_lt (by omega)]; omega
      have hv3 : m3 (b + 3) = 0 := by rw [v3, if_neg hb]
      have s4 : stepWC wcFib ⟨6, b + 4, b, m3⟩ = .next ⟨8, b + 3, b, m3⟩ :=
        (stepWC_jt (show (6:Nat) < wcFib.length by decide)
            (show wcFib.getD 6 0 = JT by decide)).trans
          (doJt_false_eq (show (7:Nat) < wcFib.length by decide)
            (show (1:Nat) ≤ b + 4 by omega) (show m3 (b + 3) = 0 from hv3))
      obtain ⟨m4, s5, v4, f4⟩ :
          ∃ mm, stepWC wcFib ⟨8, b + 3, b, m3⟩ = .next ⟨10, b + 4, b, mm⟩ ∧
            mm (b + 3) = m (b + 2) ∧ ∀ x, x < b + 3 → mm x = m x :=
        ⟨_, (stepWC_load (show (8:Nat) < wcFib.length by decide)
              (show wcFib.getD 8 0 = LOAD by decide)).trans
            (wcLoad_eq (show (9:Nat) < wcFib.length by decide)
              (show wcFib.getD 9 0 = 0 by decide)),
          by simp [wr]; exact f3 _ (by omega),
          fun x hx => by simp [wr, show x ≠ b + 3 from by omega, f3 x hx]⟩
      obtain ⟨m5, s6, v5a, v5b, f5⟩ :
          ∃ mm, stepWC wcFib ⟨10, b + 4, b, m4⟩ = .next ⟨12, b + 5, b, mm⟩ ∧
            mm (b + 3) = m (b + 2) ∧ mm (b + 4) = 1 ∧ ∀ x, x < b + 3 → mm x = m x :=
        ⟨_, (stepWC_lit (show (10:Nat) < wcFib.length by decide)
              (show wcFib.getD 10 0 = LIT by decide)).trans
            (doLit_eq (show (11:Nat) < wcFib.length by decide)
              (show wcFib.getD 11 0 = 1 by decide) (by decide)),
          by simp [wr]; exact v4, by simp [wr, literals],
          fun x hx => by simp [wr, show x ≠ b + 4 from by omega, f4 x hx]⟩
      obtain ⟨m6, s7, v6, f6⟩ :
          ∃ mm, stepWC wcFib ⟨12, b + 5, b, m5⟩ = .next ⟨14, b + 4, b, mm⟩ ∧
            mm (b + 3) = wrap (sVal (m (b + 2)) - 1) ∧ ∀ x, x < b + 3 → mm x = m x :=
        ⟨_, (stepWC_prim (show (12:Nat) < wcFib.length by decide)
              (show wcFib.getD 12 0 = PRIM by decide)).trans
            (doPrim_eq (show (13:Nat) < wcFib.length by decide)
              (show wcFib.getD 13 0 = 1 by decide) (by decide)
              (show (2:Nat) ≤ b + 5 by omega)),
          by simp [wr]; rw [v5a, v5b]; simp [primResult, sVal_one],
          fun x hx => by simp [wr, show x ≠ b + 3 from by omega, f5 x hx]⟩
      obtain ⟨m7, s8, v7a, v7b, v7c, f7⟩ :
          ∃ mm, stepWC wcFib ⟨14, b + 4, b, m6⟩ = .next ⟨0, b + 6, b + 3, mm⟩ ∧
            mm (b + 5) = wrap (sVal (m (b + 2)) - 1) ∧ mm (b + 4) = 17 ∧ mm (b + 3) = b ∧
            ∀ x, x < b + 3 → mm x = m x :=
        ⟨_, (stepWC_call (show (14:Nat) < wcFib.length by decide)
              (show wcFib.getD 14 0 = CALL by decide)).trans
            (wcCall_eq (show (15:Nat) < wcFib.length by decide)
              (show wcFib.getD 15 0 = 0 by decide) (show (1:Nat) ≤ b + 4 by omega)),
          by simp [wr]; exact v6, by simp [wr, ipStore], by simp [wr],
          fun x hx => by
            simp [wr, show x ≠ b + 3 from by omega, show x ≠ b + 4 from by omega,
              show x ≠ b + 5 from by omega, f6 x hx]⟩
      obtain ⟨mk1, hR1, hV1, hP1⟩ := ih (wrap (sVal (m (b + 2)) - 1)) (b + 3) m7 hmes1 v7a
      obtain ⟨m8, s9, v8, f8⟩ :
          ∃ mm, stepWC wcFib ⟨30, b + 7, b + 3, mk1⟩ = .next ⟨16, b + 4, b, mm⟩ ∧
            mm (b + 3) = fibW (wrap (sVal (m (b + 2)) - 1)) ∧
            ∀ x, x < b + 3 → mm x = m x :=
        ⟨_, (stepWC_ret (show (30:Nat) < wcFib.length by decide)
              (show wcFib.getD 30 0 = RET by decide)).trans
            (wcRet_next_eq (show (1:Nat) ≤ b + 7 by omega)
              (show mk1 (b + 4) = 16 + 1 by rw [hP1 _ (by omega)]; exact v7b)
              (show mk1 (b + 3) = b by rw [hP1 _ (by omega)]; exact v7c)),
          by simp [wr]; exact hV1,
          fun x hx => by
            simp [wr, show x ≠ b + 3 from by omega]
            rw [hP1 _ (by omega)]; exact f7 x hx⟩
      obtain ⟨m9, s10, v9a, v9b, f9⟩ :
          ∃ mm, stepWC wcFib ⟨16, b + 4, b, m8⟩ = .next ⟨18, b + 5, b, mm⟩ ∧
            mm (b + 4) = m (b + 2) ∧ mm (b + 3) = fibW (wrap (sVal (m (b + 2)) - 1)) ∧
            ∀ x, x < b + 3 → mm x = m x :=
        ⟨_, (stepWC_load (show (16:Nat) < wcFib.length by decide)
              (show wcFib.getD 16 0 = LOAD by decide)).trans
            (wcLoad_eq (show (17:Nat) < wcFib.length by decide)
              (show wcFib.getD 17 0 = 0 by decide)),
          by simp [wr]; exact f8 _ (by omega), by simp [wr]; exact v8,
          fun x hx => by simp [wr, show x ≠ b + 4 from by omega, f8 x hx]⟩
      obtain ⟨m10, s11, v10a, v10b, v10c, f10⟩ :
          ∃ mm, stepWC wcFib ⟨18, b + 5, b, m9⟩ = .next ⟨20, b + 6, b, mm⟩ ∧
            mm (b + 4) = m (b + 2) ∧ mm (b + 5) = 2 ∧
            mm (b + 3) = fibW (wrap (sVal (m (b + 2)) - 1)) ∧
            ∀ x, x < b + 3 → mm x = m x :=
        ⟨_, (stepWC_lit (show (18:Nat) < wcFib.length by decide)
              (show wcFib.getD 18 0 = LIT by decide)).trans
            (doLit_eq (show (19:Nat) < wcFib.length by decide)
              (show wcFib.getD 19 0 = 0 by decide) (by decide)),
          by simp [wr]; exact v9a, by simp [wr, literals], by simp [wr]; exact v9b,
          fun x hx => by simp [wr, show x ≠ b + 5 from by omega, f9 x hx]⟩
      obtain ⟨m11, s12, v11, v11b, f11⟩ :
          ∃ mm, stepWC wcFib ⟨20, b + 6, b, m10⟩ = .next ⟨22, b + 5, b, mm⟩ ∧
            mm (b + 4) = wrap (sVal (m (b + 2)) - 2) ∧
            mm (b + 3) = fibW (wrap (sVal (m (b + 2)) - 1)) ∧
            ∀ x, x < b + 3 → mm x = m x :=
        ⟨_, (stepWC_prim (show (20:Nat) < wcFib.length by decide)
              (show wcFib.getD 20 0 = PRIM by decide)).trans
            (doPrim_eq (show (21:Nat) < wcFib.length by decide)
              (show wcFib.getD 21 0 = 1 by decide) (by decide)
              (show (2:Nat) ≤ b + 6 by omega)),
          by simp [wr]; rw [v10a, v10b]; simp [primResult, sVal_two],
          by simp [wr]; exact v10c,
          fun x hx => by simp [wr, show x ≠ b + 4 from by omega, f10 x hx]⟩
      obtain ⟨m12, s13, v12a, v12b, v12c, v12d, f12⟩ :
          ∃ mm, stepWC wcFib ⟨22, b + 5, b, m11⟩ = .next ⟨0, b + 7, b + 4, mm⟩ ∧
            mm (b + 6) = wrap (sVal (m (b + 2)) - 2) ∧ mm (b + 5) = 25 ∧ mm (b + 4) = b ∧
            mm (b + 3) = fibW (wrap (sVal (m (b + 2)) - 1)) ∧
            ∀ x, x < b + 3 → mm x = m x :=
        ⟨_, (stepWC_call (show (22:Nat) < wcFib.length by decide)
              (show wcFib.getD 22 0 = CALL by decide)).trans
            (wcCall_eq (show (23:Nat) < wcFib.length by decide)
              (show wcFib.getD 23 0 = 0 by decide) (show (1:Nat) ≤ b + 5 by omega)),
          by simp [wr]; exact v11, by simp [wr, ipStore], by simp [wr],
          by simp [wr, show b + 3 ≠ b + 4 from by omega, show b + 3 ≠ b + 5 from by omega,
            show b + 3 ≠ b + 6 from by omega]; exact v11b,
          fun x hx => by
            simp [wr, show x ≠ b + 4 from by omega, show x ≠ b + 5 from by omega,
              show x ≠ b + 6 from by omega, f11 x hx]⟩
      obtain ⟨mk2, hR2, hV2, hP2⟩ := ih (wrap (sVal (m (b + 2)) - 2)) (b + 4) m12 hmes2 v12a
      obtain ⟨m13, s14, v13a, v13b, f13⟩ :
          ∃ mm, stepWC wcFib ⟨30, b + 8, b + 4, mk2⟩ = .next ⟨24, b + 5, b, mm⟩ ∧
            mm (b + 4) = fibW (wrap (sVal (m (b + 2)) - 2)) ∧
            mm (b + 3) = fibW (wrap (sVal (m (b + 2)) - 1)) ∧
            ∀ x, x < b + 3 → mm x = m x :=
        ⟨_, (stepWC_ret (show (30:Nat) < wcFib.length by decide)
              (show wcFib.getD 30 0 = RET by decide)).trans
            (wcRet_next_eq (show (1:Nat) ≤ b + 8 by omega)
              (show mk2 (b + 5) = 24 + 1 by rw [hP2 _ (by omega)]; exact v12b)
              (show mk2 (b + 4) = b by rw [hP2 _ (by omega)]; exact v12c)),
          by simp [wr]; exact hV2,
          by simp [wr, show b + 3 ≠ b + 4 from by omega]
             rw [hP2 _ (by omega)]; exact v12d,
          fun x hx => by
            simp [wr, show x ≠ b + 4 from by omega]
            rw [hP2 _ (by omega)]; exact f12 x hx⟩
      obtain ⟨m14, s15, v14, f14⟩ :
          ∃ mm, stepWC wcFib ⟨24, b + 5, b, m13⟩ = .next ⟨26, b + 4, b, mm⟩ ∧
            mm (b + 3) = wrap (sVal (fibW (wrap (sVal (m (b + 2)) - 1))) +
              sVal (fibW (wrap (sVal (m (b + 2)) - 2)))) ∧
            ∀ x, x < b + 3 → mm x = m x :=
        ⟨_, (stepWC_prim (show (24:Nat) < wcFib.length by decide)
              (show wcFib.getD 24 0 = PRIM by decide)).trans
            (doPrim_eq (show (25:Nat) < wcFib.length by decide)
              (show wcFib.getD 25 0 = 2 by decide) (by decide)
              (show (2:Nat) ≤ b + 5 by omega)),
          by simp [wr]; rw [v13b, v13a]; simp [primResult],
          fun x hx => by simp [wr, show x ≠ b + 3 from by omega, f13 x hx]⟩
      have s16 : stepWC wcFib ⟨26, b + 4, b, m14⟩ = .next ⟨30, b + 4, b, m14⟩ :=
        (stepWC_jmp (show (26:Nat) < wcFib.length by decide)
            (show wcFib.getD 26 0 = JMP by decide)).trans
          (doJmp_eq (show (27:Nat) < wcFib.length by decide)
            (show wcFib.getD 27 0 = 4 by decide)
            (show ((26:Nat) : Int) + 2 + sVal 4 - 2 = ((30:Nat) : Int) by decide))
      refine ⟨m14, ?_, ?_, f14⟩
      · exact reaches_head s1 (reaches_head s2 (reaches_head s3 (reaches_head s4
          (reaches_head s5 (reaches_head s6 (reaches_head s7 (reaches_head s8
            (reaches_trans hR1 (reaches_head s9 (reaches_head s10 (reaches_head s11
              (reaches_head s12 (reaches_head s13 (reaches_trans hR2 (reaches_head s14
                (reaches_head s15 (reaches_head s16 (reaches_rfl _ _))))))))))))))))))
      · rw [v14, fibW_rec hb2]

/-! ## The interpreted `fib` body, `handlercode2.c` / `directthreaded2.c`

Entry shape: frame at `b` (three control words at `b..b+2`), the copied
argument in local slot `b + 3`, `sp = b + 4` after reserving `frame_size`
slots; execution reaches the RET at index 32. -/

theorem hc2_body : ∀ N n b m, n % TWO64 < N → m (b + 3) = n →
    ∃ m', Reaches (stepHC2 hc2Fib) ⟨0, b + 4, b, m⟩ ⟨32, b + 5, b, m'⟩ ∧
      m' (b + 4) = fibW n ∧ ∀ x, x < b + 4 → m' x = m x := by
  intro N
  induction N with
  | zero => exact fun n b m hN _ => absurd hN (Nat.not_lt_zero _)
  | succ N ih =>
    intro n b m hN hm
    subst hm
    obtain ⟨m1, s1, v1, f1⟩ :
        ∃ mm, stepHC2 hc2Fib ⟨0, b + 4, b, m⟩ = .next ⟨2, b + 5, b, mm⟩ ∧
          mm (b + 4) = m (b + 3) ∧ ∀ x, x < b + 4 → mm x = m x :=
      ⟨_, (stepHC2_load (show (0:Nat) < hc2Fib.length by decide)
            (show hc2Fib.getD 0 0 = LOAD by decide)).trans
          (hc2Load_eq (show (1:Nat) < hc2Fib.length by decide)
            (show hc2Fib.getD 1 0 = 0 by decide)),
        by simp [wr], fun x hx => by simp [wr, show x ≠ b + 4 from by omega]⟩
    obtain ⟨m2, s2, v2a, v2b, f2⟩ :
        ∃ mm, stepHC2 hc2Fib ⟨2, b + 5, b, m1⟩ = .next ⟨4, b + 6, b, mm⟩ ∧
          mm (b + 4) = m (b + 3) ∧ mm (b + 5) = 2 ∧ ∀ x, x < b + 4 → mm x = m x :=
      ⟨_, (stepHC2_lit (show (2:Nat) < hc2Fib.length by decide)
            (show hc2Fib.getD 2 0 = LIT by decide)).trans
          (doLit_eq (show (3:Nat) < hc2Fib.length by decide)
            (show hc2Fib.getD 3 0 = 0 by decide) (by decide)),
        by simp [wr]; exact v1, by simp [wr, literals],
        fun x hx => by simp [wr, show x ≠ b + 5 from by omega, f1 x hx]⟩
    obtain ⟨m3, s3, v3, f3⟩ :
        ∃ mm, stepHC2 hc2Fib ⟨4, b + 6, b, m2⟩ = .next ⟨6, b + 5, b, mm⟩ ∧
          mm (b + 4) = (if sVal (m (b + 3)) < 2 then 1 else 0) ∧
          ∀ x, x < b + 4 → mm x = m x :=
      ⟨_, (stepHC2_prim (show (4:Nat) < hc2Fib.length by decide)
            (show hc2Fib.getD 4 0 = PRIM by decide)).trans
          (doPrim_eq (show (5:Nat) < hc2Fib.length by decide)
            (show hc2Fib.getD 5 0 = 0 by decide) (by decide) (show (2:Nat) ≤ b + 6 by omega)),
        by simp [wr]; rw [v2a, v2b]; simp [primResult, sVal_two],
        fun x hx => by simp [wr, show x ≠ b + 4 from by omega, f2 x hx]⟩
    by_cases hb : sVal (m (b + 3)) < 2
    · -- base path: JT taken to the LIT 1 at index 30
      have hv3 : m3 (b + 4) = 1 := by rw [v3, if_pos hb]
      have s4 : stepHC2 hc2Fib ⟨6, b + 5, b, m3⟩ = .next ⟨30, b + 4, b, m3⟩ :=
        (stepHC2_jt (show (6:Nat) < hc2Fib.length by decide)
            (show hc2Fib.getD 6 0 = JT by decide)).trans
          (doJt_true_eq (show (7:Nat) < hc2Fib.length by decide)
            (show (1:Nat) ≤ b + 5 by omega) (show hc2Fib.getD 7 0 = 24 by decide)
            (show m3 (b + 4) ≠ 0 by simp [hv3])
            (show ((6:Nat) : Int) + 2 + sVal 24 - 2 = ((30:Nat) : Int) by decide))
      obtain ⟨m4, s5, v5, f5⟩ :
          ∃ mm, stepHC2 hc2Fib ⟨30, b + 4, b, m3⟩ = .next ⟨32, b + 5, b, mm⟩ ∧
            mm (b + 4) = 1 ∧ ∀ x, x < b + 4 → mm x = m x :=
        ⟨_, (stepHC2_lit (show (30:Nat) < hc2Fib.length by decide)
              (show hc2Fib.getD 30 0 = LIT by decide)).trans
            (doLit_eq (show (31:Nat) < hc2Fib.length by decide)
              (show hc2Fib.getD 31 0 = 1 by decide) (by decide)),
          by simp [wr, literals],
          fun x hx => by simp [wr, show x ≠ b + 4 from by omega, f3 x hx]⟩
      refine ⟨m4, ?_, ?_, f5⟩
      · exact reaches_head s1 (reaches_head s2 (reaches_head s3 (reaches_head s4
          (reaches_head s5 (reaches_rfl _ _)))))
      · rw [v5, fibW_base hb]
    · -- recursive path
      have hb2 : 2 ≤ sVal (m (b + 3)) := not_lt.1 hb
      obtain ⟨g1, g2, g3⟩ := sVal_ge2 hb2
      have hmod := mod_two64_lt (m (b + 3))
      have w1eq : wrap (sVal (m (b + 3)) - 1) = m (b + 3) % TWO64 - 1 := wrap_sval_sub_one hb2
      have w2eq : wrap (sVal (m (b + 3)) - 2) = m (b + 3) % TWO64 - 2 := wrap_sval_sub_two hb2
      have hmes1 : wrap (sVal (m (b + 3)) - 1) % TWO64 < N := by
        rw [w1eq, Nat.mod_eq_of_lt (by omega)]; omega
      have hmes2 : wrap (sVal (m (b + 3)) - 2) % TWO64 < N := by
        rw [w2eq, Nat.mod_eq_of_lt (by omega)]; omega
      have hv3 : m3 (b + 4) = 0 := by rw [v3, if_neg hb]
      have s4 : stepHC2 hc2Fib ⟨6, b + 5, b, m3⟩ = .next ⟨8, b + 4, b, m3⟩ :=
        (stepHC2_jt (show (6:Nat) < hc2Fib.length by decide)
            (show hc2Fib.getD 6 0 = JT by decide)).trans
          (doJt_false_eq (show (7:Nat) < hc2Fib.length by decide)
            (show (1:Nat) ≤ b + 5 by omega) (show m3 (b + 4) = 0 from hv3))
      obtain ⟨m4, s5, v4, f4⟩ :
          ∃ mm, stepHC2 hc2Fib ⟨8, b + 4, b, m3⟩ = .next ⟨10, b + 5, b, mm⟩ ∧
            mm (b + 4) = m (b + 3) ∧ ∀ x, x < b + 4 → mm x = m x :=
        ⟨_, (stepHC2_load (show (8:Nat) < hc2Fib.length by decide)
              (show hc2Fib.getD 8 0 = LOAD by decide)).trans
            (hc2Load_eq (show (9:Nat) < hc2Fib.length by decide)
              (show hc2Fib.getD 9 0 = 0 by decide)),
          by simp [wr]; exact f3 _ (by omega),
          fun x hx => by simp [wr, show x ≠ b + 4 from by omega, f3 x hx]⟩
      obtain ⟨m5, s6, v5a, v5b, f5⟩ :
          ∃ mm, stepHC2 hc2Fib ⟨10, b + 5, b, m4⟩ = .next ⟨12, b + 6, b, mm⟩ ∧
            mm (b + 4) = m (b + 3) ∧ mm (b + 5) = 1 ∧ ∀ x, x < b + 4 → mm x = m x :=
        ⟨_, (stepHC2_lit (show (10:Nat) < hc2Fib.length by decide)
              (show hc2Fib.getD 10 0 = LIT by decide)).trans
            (doLit_eq (show (11:Nat) < hc2Fib.length by decide)
              (show hc2Fib.getD 11 0 = 1 by decide) (by decide)),
          by simp [wr]; exact v4, by simp [wr, literals],
          fun x hx => by simp [wr, show x ≠ b + 5 from by omega, f4 x hx]⟩
      obtain ⟨m6, s7, v6, f6⟩ :
          ∃ mm, stepHC2 hc2Fib ⟨12, b + 6, b, m5⟩ = .next ⟨14, b + 5, b, mm⟩ ∧
            mm (b + 4) = wrap (sVal (m (b + 3)) - 1) ∧ ∀ x, x < b + 4 → mm x = m x :=
        ⟨_, (stepHC2_prim (show (12:Nat) < hc2Fib.length by decide)
              (show hc2Fib.getD 12 0 = PRIM by decide)).trans
            (doPrim_eq (show (13:Nat) < hc2Fib.length by decide)
              (show hc2Fib.getD 13 0 = 1 by decide) (by decide)
              (show (2:Nat) ≤ b + 6 by omega)),
          by simp [wr]; rw [v5a, v5b]; simp [primResult, sVal_one],
          fun x hx => by simp [wr, show x ≠ b + 4 from by omega, f5 x hx]⟩
      obtain ⟨m7, s8, v7a, v7b, v7c, v7d, f7⟩ :
          ∃ mm, stepHC2 hc2Fib ⟨14, b + 5, b, m6⟩ = .next ⟨0, b + 9, b + 5, mm⟩ ∧
            mm (b + 8) = wrap (sVal (m (b + 3)) - 1) ∧ mm (b + 7) = 1 ∧ mm (b + 6) = 18 ∧
            mm (b + 5) = b ∧ ∀ x, x < b + 4 → mm x = m x :=
        ⟨_, (stepHC2_call (show (14:Nat) < hc2Fib.length by decide)
              (show hc2Fib.getD 14 0 = CALL by decide)).trans
            (hc2Call_eq (show (16:Nat) < hc2Fib.length by decide)
              (show hc2Fib.getD 15 0 = 0 by decide) (show hc2Fib.getD 16 0 = 1 by decide)
              (show (1:Nat) ≤ b + 5 by omega)),
          by simp [wr]; exact v6, by simp [wr], by simp [wr, ipStore], by simp [wr],
          fun x hx => by
            simp [wr, show x ≠ b + 5 from by omega, show x ≠ b + 6 from by omega,
              show x ≠ b + 7 from by omega, show x ≠ b + 8 from by omega, f6 x hx]⟩
      obtain ⟨mk1, hR1, hV1, hP1⟩ := ih (wrap (sVal (m (b + 3)) - 1)) (b + 5) m7 hmes1 v7a
      obtain ⟨m8, s9, v8, f8⟩ :
          ∃ mm, stepHC2 hc2Fib ⟨32, b + 10, b + 5, mk1⟩ = .next ⟨17, b + 5, b, mm⟩ ∧
            mm (b + 4) = fibW (wrap (sVal (m (b + 3)) - 1)) ∧
            ∀ x, x < b + 4 → mm x = m x :=
        ⟨_, (stepHC2_ret (show (32:Nat) < hc2Fib.length by decide)
              (show hc2Fib.getD 32 0 = RET by decide)).trans
            (doRet3_next_eq (show (1:Nat) ≤ b + 10 by omega)
              (show mk1 (b + 7) = 1 by rw [hP1 _ (by omega)]; exact v7b)
              (show (1:Nat) ≤ b + 5 by omega)
              (show mk1 (b + 6) = 17 + 1 by rw [hP1 _ (by omega)]; exact v7c)
              (show mk1 (b + 5) = b by rw [hP1 _ (by omega)]; exact v7d)),
          by simp [wr]; exact hV1,
          fun x hx => by
            simp [wr, show x ≠ b + 4 from by omega]
            rw [hP1 _ (by omega)]; exact f7 x hx⟩
      obtain ⟨m9, s10, v9a, v9b, f9⟩ :
          ∃ mm, stepHC2 hc2Fib ⟨17, b + 5, b, m8⟩ = .next ⟨19, b + 6, b, mm⟩ ∧
            mm (b + 5) = m (b + 3) ∧ mm (b + 4) = fibW (wrap (sVal (m (b + 3)) - 1)) ∧
            ∀ x, x < b + 4 → mm x = m x :=
        ⟨_, (stepHC2_load (show (17:Nat) < hc2Fib.length by decide)
              (show hc2Fib.getD 17 0 = LOAD by decide)).trans
            (hc2Load_eq (show (18:Nat) < hc2Fib.length by decide)
              (show hc2Fib.getD 18 0 = 0 by decide)),
          by simp [wr]; exact f8 _ (by omega), by simp [wr]; exact v8,
          fun x hx => by simp [wr, show x ≠ b + 5 from by omega, f8 x hx]⟩
      obtain ⟨m10, s11, v10a, v10b, v10c, f10⟩ :
          ∃ mm, stepHC2 hc2Fib ⟨19, b + 6, b, m9⟩ = .next ⟨21, b + 7, b, mm⟩ ∧
            mm (b + 5) = m (b + 3) ∧ mm (b + 6) = 2 ∧
            mm (b + 4) = fibW (wrap (sVal (m (b + 3)) - 1)) ∧
            ∀ x, x < b + 4 → mm x = m x :=
        ⟨_, (stepHC2_lit (show (19:Nat) < hc2Fib.length by decide)
              (show hc2Fib.getD 19 0 = LIT by decide)).trans
            (doLit_eq (show (20:Nat) < hc2Fib.length by decide)
              (show hc2Fib.getD 20 0 = 0 by decide) (by decide)),
          by simp [wr]; exact v9a, by simp [wr, literals], by simp [wr]; exact v9b,
          fun x hx => by simp [wr, show x ≠ b + 6 from by omega, f9 x hx]⟩
      obtain ⟨m11, s12, v11, v11b, f11⟩ :
          ∃ mm, stepHC2 hc2Fib ⟨21, b + 7, b, m10⟩ = .next ⟨23, b + 6, b, mm⟩ ∧
            mm (b + 5) = wrap (sVal (m (b + 3)) - 2) ∧
            mm (b + 4) = fibW (wrap (sVal (m (b + 3)) - 1)) ∧
            ∀ x, x < b + 4 → mm x = m x :=
        ⟨_, (stepHC2_prim (show (21:Nat) < hc2Fib.length by decide)
              (show hc2Fib.getD 21 0 = PRIM by decide)).trans
            (doPrim_eq (show (22:Nat) < hc2Fib.length by decide)
              (show hc2Fib.getD 22 0 = 1 by decide) (by decide)
              (show (2:Nat) ≤ b + 7 by omega)),
          by simp [wr]; rw [v10a, v10b]; simp [primResult, sVal_two],
          by simp [wr]; exact v10c,
          fun x hx => by simp [wr, show x ≠ b + 5 from by omega, f10 x hx]⟩
      obtain ⟨m12, s13, v12a, v12b, v12c, v12d, v12e, f12⟩ :
          ∃ mm, stepHC2 hc2Fib ⟨23, b + 6, b, m11⟩ = .next ⟨0, b + 10, b + 6, mm⟩ ∧
            mm (b + 9) = wrap (sVal (m (b + 3)) - 2) ∧ mm (b + 8) = 1 ∧ mm (b + 7) = 27 ∧
            mm (b + 6) = b ∧ mm (b + 4) = fibW (wrap (sVal (m (b + 3)) - 1)) ∧
            ∀ x, x < b + 4 → mm x = m x :=
        ⟨_, (stepHC2_call (show (23:Nat) < hc2Fib.length by decide)
              (show hc2Fib.getD 23 0 = CALL by decide)).trans
            (hc2Call_eq (show (25:Nat) < hc2Fib.length by decide)
              (show hc2Fib.getD 24 0 = 0 by decide) (show hc2Fib.getD 25 0 = 1 by decide)
              (show (1:Nat) ≤ b + 6 by omega)),
          by simp [wr]; exact v11, by simp [wr], by simp [wr, ipStore], by simp [wr],
          by simp [wr, show b + 4 ≠ b + 6 from by omega, show b + 4 ≠ b + 7 from by omega,
            show b + 4 ≠ b + 8 from by omega, show b + 4 ≠ b + 9 from by omega]
             exact v11b,
          fun x hx => by
            simp [wr, show x ≠ b + 6 from by omega, show x ≠ b + 7 from by omega,
              show x ≠ b + 8 from by omega, show x ≠ b + 9 from by omega, f11 x hx]⟩
      obtain ⟨mk2, hR2, hV2, hP2⟩ := ih (wrap (sVal (m (b + 3)) - 2)) (b + 6) m12 hmes2 v12a
      obtain ⟨m13, s14, v13a, v13b, f13⟩ :
          ∃ mm, stepHC2 hc2Fib ⟨32, b + 11, b + 6, mk2⟩ = .next ⟨26, b + 6, b, mm⟩ ∧
            mm (b + 5) = fibW (wrap (sVal (m (b + 3)) - 2)) ∧
            mm (b + 4) = fibW (wrap (sVal (m (b + 3)) - 1)) ∧
            ∀ x, x < b + 4 → mm x = m x :=
        ⟨_, (stepHC2_ret (show (32:Nat) < hc2Fib.length by decide)
              (show hc2Fib.getD 32 0 = RET by decide)).trans
            (doRet3_next_eq (show (1:Nat) ≤ b + 11 by omega)
              (show mk2 (b + 8) = 1 by rw [hP2 _ (by omega)]; exact v12b)
              (show (1:Nat) ≤ b + 6 by omega)
              (show mk2 (b + 7) = 26 + 1 by rw [hP2 _ (by omega)]; exact v12c)
              (show mk2 (b + 6) = b by rw [hP2 _ (by omega)]; exact v12d)),
          by simp [wr]; exact hV2,
          by simp [wr, show b + 4 ≠ b + 5 from by omega]
             rw [hP2 _ (by omega)]; exact v12e,
          fun x hx => by
            simp [wr, show x ≠ b + 5 from by omega]
            rw [hP2 _ (by omega)]; exact f12 x hx⟩
      obtain ⟨m14, s15, v14, f14⟩ :
          ∃ mm, stepHC2 hc2Fib ⟨26, b + 6, b, m13⟩ = .next ⟨28, b + 5, b, mm⟩ ∧
            mm (b + 4) = wrap (sVal (fibW (wrap (sVal (m (b + 3)) - 1))) +
              sVal (fibW (wrap (sVal (m (b + 3)) - 2)))) ∧
            ∀ x, x < b + 4 → mm x = m x :=
        ⟨_, (stepHC2_prim (show (26:Nat) < hc2Fib.length by decide)
              (show hc2Fib.getD 26 0 = PRIM by decide)).trans
            (doPrim_eq (show (27:Nat) < hc2Fib.length by decide)
              (show hc2Fib.getD 27 0 = 2 by decide) (by decide)
              (show (2:Nat) ≤ b + 6 by omega)),
          by simp [wr]; rw [v13b, v13a]; simp [primResult],
          fun x hx => by simp [wr, show x ≠ b + 4 from by omega, f13 x hx]⟩
      have s16 : stepHC2 hc2Fib ⟨28, b + 5, b, m14⟩ = .next ⟨32, b + 5, b, m14⟩ :=
        (stepHC2_jmp (show (28:Nat) < hc2Fib.length by decide)
            (show hc2Fib.getD 28 0 = JMP by decide)).trans
          (doJmp_eq (show (29:Nat) < hc2Fib.length by decide)
            (show hc2Fib.getD 29 0 = 4 by decide)
            (show ((28:Nat) : Int) + 2 + sVal 4 - 2 = ((32:Nat) : Int) by decide))
      refine ⟨m14, ?_, ?_, f14⟩
      · exact reaches_head s1 (reaches_head s2 (reaches_head s3 (reaches_head s4
          (reaches_head s5 (reaches_head s6 (reaches_head s7 (reaches_head s8
            (reaches_trans hR1 (reaches_head s9 (reaches_head s10 (reaches_head s11
              (reaches_head s12 (reaches_head s13 (reaches_trans hR2 (reaches_head s14
                (reaches_head s15 (reaches_head s16 (reaches_rfl _ _))))))))))))))))))
      · rw [v14, fibW_rec hb2]

/-! ## The interpreted `fib` body, `directthreaded3.c`

Entry shape: the argument lives below the frame at `b`, `bp = b + 1` points
at the three control words, `sp = b + 4` (frame_size is 0); execution
reaches the RET at index 32. -/

theorem dt3_body : ∀ N n b m, n % TWO64 < N → m b = n →
    ∃ m', Reaches (stepDT dt3Fib) ⟨0, b + 4, b + 1, m⟩ ⟨32, b + 5, b + 1, m'⟩ ∧
      m' (b + 4) = fibW n ∧ ∀ x, x < b + 4 → m' x = m x := by
  intro N
  induction N with
  | zero => exact fun n b m hN _ => absurd hN (Nat.not_lt_zero _)
  | succ N ih =>
    intro n b m hN hm
    subst hm
    obtain ⟨m1, s1, v1, f1⟩ :
        ∃ mm, stepDT dt3Fib ⟨0, b + 4, b + 1, m⟩ = .next ⟨2, b + 5, b + 1, mm⟩ ∧
          mm (b + 4) = m b ∧ ∀ x, x < b + 4 → mm x = m x :=
      ⟨_, (stepDT_load (show (0:Nat) < dt3Fib.length by decide)
            (show dt3Fib.getD 0 0 = LOAD by decide)).trans
          (dtLoad_eq (show (1:Nat) < dt3Fib.length by decide)
            (show dt3Fib.getD 1 0 = M1 by decide)
            (show ((b + 1 : Nat) : Int) + sVal M1 = ((b : Nat) : Int) by
              rw [sVal_M1]; omega)),
        by simp [wr], fun x hx => by simp [wr, show x ≠ b + 4 from by omega]⟩
    obtain ⟨m2, s2, v2a, v2b, f2⟩ :
        ∃ mm, stepDT dt3Fib ⟨2, b + 5, b + 1, m1⟩ = .next ⟨4, b + 6, b + 1, mm⟩ ∧
          mm (b + 4) = m b ∧ mm (b + 5) = 2 ∧ ∀ x, x < b + 4 → mm x = m x :=
      ⟨_, (stepDT_lit (show (2:Nat) < dt3Fib.length by decide)
            (show dt3Fib.getD 2 0 = LIT by decide)).trans
          (doLit_eq (show (3:Nat) < dt3Fib.length by decide)
            (show dt3Fib.getD 3 0 = 0 by decide) (by decide)),
        by simp [wr]; exact v1, by simp [wr, literals],
        fun x hx => by simp [wr, show x ≠ b + 5 from by omega, f1 x hx]⟩
    obtain ⟨m3, s3, v3, f3⟩ :
        ∃ mm, stepDT dt3Fib ⟨4, b + 6, b + 1, m2⟩ = .next ⟨6, b + 5, b + 1, mm⟩ ∧
          mm (b + 4) = (if sVal (m b) < 2 then 1 else 0) ∧
          ∀ x, x < b + 4 → mm x = m x :=
      ⟨_, (stepDT_prim (show (4:Nat) < dt3Fib.length by decide)
            (show dt3Fib.getD 4 0 = PRIM by decide)).trans
          (doPrim_eq (show (5:Nat) < dt3Fib.length by decide)
            (show dt3Fib.getD 5 0 = 0 by decide) (by decide) (show (2:Nat) ≤ b + 6 by omega)),
        by simp [wr]; rw [v2a, v2b]; simp [primResult, sVal_two],
        fun x hx => by simp [wr, show x ≠ b + 4 from by omega, f2 x hx]⟩
    by_cases hb : sVal (m b) < 2
    · -- base path: JT taken to the LIT 1 at index 30
      have hv3 : m3 (b + 4) = 1 := by rw [v3, if_pos hb]
      have s4 : stepDT dt3Fib ⟨6, b + 5, b + 1, m3⟩ = .next ⟨30, b + 4, b + 1, m3⟩ :=
        (stepDT_jt (show (6:Nat) < dt3Fib.length by decide)
            (show dt3Fib.getD 6 0 = JT by decide)).trans
          (doJt_true_eq (show (7:Nat) < dt3Fib.length by decide)
            (show (1:Nat) ≤ b + 5 by omega) (show dt3Fib.getD 7 0 = 24 by decide)
            (show m3 (b + 4) ≠ 0 by simp [hv3])
            (show ((6:Nat) : Int) + 2 + sVal 24 - 2 = ((30:Nat) : Int) by decide))
      obtain ⟨m4, s5, v5, f5⟩ :
          ∃ mm, stepDT dt3Fib ⟨30, b + 4, b + 1, m3⟩ = .next ⟨32, b + 5, b + 1, mm⟩ ∧
            mm (b + 4) = 1 ∧ ∀ x, x < b + 4 → mm x = m x :=
        ⟨_, (stepDT_lit (show (30:Nat) < dt3Fib.length by decide)
              (show dt3Fib.getD 30 0 = LIT by decide)).trans
            (doLit_eq (show (31:Nat) < dt3Fib.length by decide)
              (show dt3Fib.getD 31 0 = 1 by decide) (by decide)),
          by simp [wr, literals],
          fun x hx => by simp [wr, show x ≠ b + 4 from by omega, f3 x hx]⟩
      refine ⟨m4, ?_, ?_, f5⟩
      · exact reaches_head s1 (reaches_head s2 (reaches_head s3 (reaches_head s4
          (reaches_head s5 (reaches_rfl _ _)))))
      · rw [v5, fibW_base hb]
    · -- recursive path
      have hb2 : 2 ≤ sVal (m b) := not_lt.1 hb
      obtain ⟨g1, g2, g3⟩ := sVal_ge2 hb2
      have hmod := mod_two64_lt (m b)
      have w1eq : wrap (sVal (m b) - 1) = m b % TWO64 - 1 := wrap_sval_sub_one hb2
      have w2eq : wrap (sVal (m b) - 2) = m b % TWO64 - 2 := wrap_sval_sub_two hb2
      have hmes1 : wrap (sVal (m b) - 1) % TWO64 < N := by
        rw [w1eq, Nat.mod_eq_of_lt (by omega)]; omega
      have hmes2 : wrap (sVal (m b) - 2) % TWO64 < N := by
        rw [w2eq, Nat.mod_eq_of_lt (by omega)]; omega
      have hv3 : m3 (b + 4) = 0 := by rw [v3, if_neg hb]
      have s4 : stepDT dt3Fib ⟨6, b + 5, b + 1, m3⟩ = .next ⟨8, b + 4, b + 1, m3⟩ :=
        (stepDT_jt (show (6:Nat) < dt3Fib.length by decide)
            (show dt3Fib.getD 6 0 = JT by decide)).trans
          (doJt_false_eq (show (7:Nat) < dt3Fib.length by decide)
            (show (1:Nat) ≤ b + 5 by omega) (show m3 (b + 4) = 0 from hv3))
      obtain ⟨m4, s5, v4, f4⟩ :
          ∃ mm, stepDT dt3Fib ⟨8, b + 4, b + 1, m3⟩ = .next ⟨10, b + 5, b + 1, mm⟩ ∧
            mm (b + 4) = m b ∧ ∀ x, x < b + 4 → mm x = m x :=
        ⟨_, (stepDT_load (show (8:Nat) < dt3Fib.length by decide)
              (show dt3Fib.getD 8 0 = LOAD by decide)).trans
            (dtLoad_eq (show (9:Nat) < dt3Fib.length by decide)
              (show dt3Fib.getD 9 0 = M1 by decide)
              (show ((b + 1 : Nat) : Int) + sVal M1 = ((b : Nat) : Int) by
                rw [sVal_M1]; omega)),
          by simp [wr]; exact f3 _ (by omega),
          fun x hx => by simp [wr, show x ≠ b + 4 from by omega, f3 x hx]⟩
      obtain ⟨m5, s6, v5a, v5b, f5⟩ :
          ∃ mm, stepDT dt3Fib ⟨10, b + 5, b + 1, m4⟩ = .next ⟨12, b + 6, b + 1, mm⟩ ∧
            mm (b + 4) = m b ∧ mm (b + 5) = 1 ∧ ∀ x, x < b + 4 → mm x = m x :=
        ⟨_, (stepDT_lit (show (10:Nat) < dt3Fib.length by decide)
              (show dt3Fib.getD 10 0 = LIT by decide)).trans
            (doLit_eq (show (11:Nat) < dt3Fib.length by decide)
              (show dt3Fib.getD 11 0 = 1 by decide) (by decide)),
          by simp [wr]; exact v4, by simp [wr, literals],
          fun x hx => by simp [wr, show x ≠ b + 5 from by omega, f4 x hx]⟩
      obtain ⟨m6, s7, v6, f6⟩ :
          ∃ mm, stepDT dt3Fib ⟨12, b + 6, b + 1, m5⟩ = .next ⟨14, b + 5, b + 1, mm⟩ ∧
            mm (b + 4) = wrap (sVal (m b) - 1) ∧ ∀ x, x < b + 4 → mm x = m x :=
        ⟨_, (stepDT_prim (show (12:Nat) < dt3Fib.length by decide)
              (show dt3Fib.getD 12 0 = PRIM by decide)).trans
            (doPrim_eq (show (13:Nat) < dt3Fib.length by decide)
              (show dt3Fib.getD 13 0 = 1 by decide) (by decide)
              (show (2:Nat) ≤ b + 6 by omega)),
          by simp [wr]; rw [v5a, v5b]; simp [primResult, sVal_one],
          fun x hx => by simp [wr, show x ≠ b + 4 from by omega, f5 x hx]⟩
      obtain ⟨m7, s8, v7a, v7b, v7c, v7d, f7⟩ :
          ∃ mm, stepDT dt3Fib ⟨14, b + 5, b + 1, m6⟩ = .next ⟨0, b + 8, b + 5, mm⟩ ∧
            mm (b + 4) = wrap (sVal (m b) - 1) ∧ mm (b + 7) = 1 ∧ mm (b + 6) = 18 ∧
            mm (b + 5) = b + 1 ∧ ∀ x, x < b + 4 → mm x = m x :=
        ⟨_, (stepDT_call (show (14:Nat) < dt3Fib.length by decide)
              (show dt3Fib.getD 14 0 = CALL by decide)).trans
            (dtCall_eq (show (16:Nat) < dt3Fib.length by decide)
              (show dt3Fib.getD 15 0 = 0 by decide) (show dt3Fib.getD 16 0 = 1 by decide)),
          by simp [wr, show b + 4 ≠ b + 5 from by omega, show b + 4 ≠ b + 6 from by omega,
            show b + 4 ≠ b + 7 from by omega]
             exact v6,
          by simp [wr], by simp [wr, ipStore], by simp [wr],
          fun x hx => by
            simp [wr, show x ≠ b + 5 from by omega, show x ≠ b + 6 from by omega,
              show x ≠ b + 7 from by omega, f6 x hx]⟩
      obtain ⟨mk1, hR1, hV1, hP1⟩ := ih (wrap (sVal (m b) - 1)) (b + 4) m7 hmes1 v7a
      obtain ⟨m8, s9, v8, f8⟩ :
          ∃ mm, stepDT dt3Fib ⟨32, b + 9, b + 5, mk1⟩ = .next ⟨17, b + 5, b + 1, mm⟩ ∧
            mm (b + 4) = fibW (wrap (sVal (m b) - 1)) ∧
            ∀ x, x < b + 4 → mm x = m x :=
        ⟨_, (stepDT_ret (show (32:Nat) < dt3Fib.length by decide)
              (show dt3Fib.getD 32 0 = RET by decide)).trans
            (doRet3_next_eq (show (1:Nat) ≤ b + 9 by omega)
              (show mk1 (b + 7) = 1 by rw [hP1 _ (by omega)]; exact v7b)
              (show (1:Nat) ≤ b + 5 by omega)
              (show mk1 (b + 6) = 17 + 1 by rw [hP1 _ (by omega)]; exact v7c)
              (show mk1 (b + 5) = b + 1 by rw [hP1 _ (by omega)]; exact v7d)),
          by simp [wr]; exact hV1,
          fun x hx => by
            simp [wr, show x ≠ b + 4 from by omega]
            rw [hP1 _ (by omega)]; exact f7 x hx⟩
      obtain ⟨m9, s10, v9a, v9b, f9⟩ :
          ∃ mm, stepDT dt3Fib ⟨17, b + 5, b + 1, m8⟩ = .next ⟨19, b + 6, b + 1, mm⟩ ∧
            mm (b + 5) = m b ∧ mm (b + 4) = fibW (wrap (sVal (m b) - 1)) ∧
            ∀ x, x < b + 4 → mm x = m x :=
        ⟨_, (stepDT_load (show (17:Nat) < dt3Fib.length by decide)
              (show dt3Fib.getD 17 0 = LOAD by decide)).trans
            (dtLoad_eq (show (18:Nat) < dt3Fib.length by decide)
              (show dt3Fib.getD 18 0 = M1 by decide)
              (show ((b + 1 : Nat) : Int) + sVal M1 = ((b : Nat) : Int) by
                rw [sVal_M1]; omega)),
          by simp [wr]; exact f8 _ (by omega), by simp [wr]; exact v8,
          fun x hx => by simp [wr, show x ≠ b + 5 from by omega, f8 x hx]⟩
      obtain ⟨m10, s11, v10a, v10b, v10c, f10⟩ :
          ∃ mm, stepDT dt3Fib ⟨19, b + 6, b + 1, m9⟩ = .next ⟨21, b + 7, b + 1, mm⟩ ∧
            mm (b + 5) = m b ∧ mm (b + 6) = 2 ∧
            mm (b + 4) = fibW (wrap (sVal (m b) - 1)) ∧
            ∀ x, x < b + 4 → mm x = m x :=
        ⟨_, (stepDT_lit (show (19:Nat) < dt3Fib.length by decide)
              (show dt3Fib.getD 19 0 = LIT by decide)).trans
            (doLit_eq (show (20:Nat) < dt3Fib.length by decide)
              (show dt3Fib.getD 20 0 = 0 by decide) (by decide)),
          by simp [wr]; exact v9a, by simp [wr, literals], by simp [wr]; exact v9b,
          fun x hx => by simp [wr, show x ≠ b + 6 from by omega, f9 x hx]⟩
      obtain ⟨m11, s12, v11, v11b, f11⟩ :
          ∃ mm, stepDT dt3Fib ⟨21, b + 7, b + 1, m10⟩ = .next ⟨23, b + 6, b + 1, mm⟩ ∧
            mm (b + 5) = wrap (sVal (m b) - 2) ∧
            mm (b + 4) = fibW (wrap (sVal (m b) - 1)) ∧
            ∀ x, x < b + 4 → mm x = m x :=
        ⟨_, (stepDT_prim (show (21:Nat) < dt3Fib.length by decide)
              (show dt3Fib.getD 21 0 = PRIM by decide)).trans
            (doPrim_eq (show (22:Nat) < dt3Fib.length by decide)
              (show dt3Fib.getD 22 0 = 1 by decide) (by decide)
              (show (2:Nat) ≤ b + 7 by omega)),
          by simp [wr]; rw [v10a, v10b]; simp [primResult, sVal_two],
          by simp [wr]; exact v10c,
          fun x hx => by simp [wr, show x ≠ b + 5 from by omega, f10 x hx]⟩
      obtain ⟨m12, s13, v12a, v12b, v12c, v12d, v12e, f12⟩ :
          ∃ mm, stepDT dt3Fib ⟨23, b + 6, b + 1, m11⟩ = .next ⟨0, b + 9, b + 6, mm⟩ ∧
            mm (b + 5) = wrap (sVal (m b) - 2) ∧ mm (b + 8) = 1 ∧ mm (b + 7) = 27 ∧
            mm (b + 6) = b + 1 ∧ mm (b + 4) = fibW (wrap (sVal (m b) - 1)) ∧
            ∀ x, x < b + 4 → mm x = m x :=
        ⟨_, (stepDT_call (show (23:Nat) < dt3Fib.length by decide)
              (show dt3Fib.getD 23 0 = CALL by decide)).trans
            (dtCall_eq (show (25:Nat) < dt3Fib.length by decide)
              (show dt3Fib.getD 24 0 = 0 by decide) (show dt3Fib.getD 25 0 = 1 by decide)),
          by simp [wr, show b + 5 ≠ b + 6 from by omega, show b + 5 ≠ b + 7 from by omega,
            show b + 5 ≠ b + 8 from by omega]
             exact v11,
          by simp [wr], by simp [wr, ipStore], by simp [wr],
          by simp [wr, show b + 4 ≠ b + 6 from by omega, show b + 4 ≠ b + 7 from by omega,
            show b + 4 ≠ b + 8 from by omega]
             exact v11b,
          fun x hx => by
            simp [wr, show x ≠ b + 6 from by omega, show x ≠ b + 7 from by omega,
              show x ≠ b + 8 from by omega, f11 x hx]⟩
      obtain ⟨mk2, hR2, hV2, hP2⟩ := ih (wrap (sVal (m b) - 2)) (b + 5) m12 hmes2 v12a
      obtain ⟨m13, s14, v13a, v13b, f13⟩ :
          ∃ mm, stepDT dt3Fib ⟨32, b + 10, b + 6, mk2⟩ = .next ⟨26, b + 6, b + 1, mm⟩ ∧
            mm (b + 5) = fibW (wrap (sVal (m b) - 2)) ∧
            mm (b + 4) = fibW (wrap (sVal (m b) - 1)) ∧
            ∀ x, x < b + 4 → mm x = m x :=
        ⟨_, (stepDT_ret (show (32:Nat) < dt3Fib.length by decide)
              (show dt3Fib.getD 32 0 = RET by decide)).trans
            (doRet3_next_eq (show (1:Nat) ≤ b + 10 by omega)
              (show mk2 (b + 8) = 1 by rw [hP2 _ (by omega)]; exact v12b)
              (show (1:Nat) ≤ b + 6 by omega)
              (show mk2 (b + 7) = 26 + 1 by rw [hP2 _ (by omega)]; exact v12c)
              (show mk2 (b + 6) = b + 1 by rw [hP2 _ (by omega)]; exact v12d)),
          by simp [wr]; exact hV2,
          by simp [wr, show b + 4 ≠ b + 5 from by omega]
             rw [hP2 _ (by omega)]; exact v12e,
          fun x hx => by
            simp [wr, show x ≠ b + 5 from by omega]
            rw [hP2 _ (by omega)]; exact f12 x hx⟩
      obtain ⟨m14, s15, v14, f14⟩ :
          ∃ mm, stepDT dt3Fib ⟨26, b + 6, b + 1, m13⟩ = .next ⟨28, b + 5, b + 1, mm⟩ ∧
            mm (b + 4) = wrap (sVal (fibW (wrap (sVal (m b) - 1))) +
              sVal (fibW (wrap (sVal (m b) - 2)))) ∧
            ∀ x, x < b + 4 → mm x = m x :=
        ⟨_, (stepDT_prim (show (26:Nat) < dt3Fib.length by decide)
              (show dt3Fib.getD 26 0 = PRIM by decide)).trans
            (doPrim_eq (show (27:Nat) < dt3Fib.length by decide)
              (show dt3Fib.getD 27 0 = 2 by decide) (by decide)
              (show (2:Nat) ≤ b + 6 by omega)),
          by simp [wr]; rw [v13b, v13a]; simp [primResult],
          fun x hx => by simp [wr, show x ≠ b + 4 from by omega, f13 x hx]⟩
      have s16 : stepDT dt3Fib ⟨28, b + 5, b + 1, m14⟩ = .next ⟨32, b + 5, b + 1, m14⟩ :=
        (stepDT_jmp (show (28:Nat) < dt3Fib.length by decide)
            (show dt3Fib.getD 28 0 = JMP by decide)).trans
          (doJmp_eq (show (29:Nat) < dt3Fib.length by decide)
            (show dt3Fib.getD 29 0 = 4 by decide)
            (show ((28:Nat) : Int) + 2 + sVal 4 - 2 = ((32:Nat) : Int) by decide))
      refine ⟨m14, ?_, ?_, f14⟩
      · exact reaches_head s1 (reaches_head s2 (reaches_head s3 (reaches_head s4
          (reaches_head s5 (reaches_head s6 (reaches_head s7 (reaches_head s8
            (reaches_trans hR1 (reaches_head s9 (reaches_head s10 (reaches_head s11
              (reaches_head s12 (reaches_head s13 (reaches_trans hR2 (reaches_head s14
                (reaches_head s15 (reaches_head s16 (reaches_rfl _ _))))))))))))))))))
      · rw [v14, fibW_rec hb2]

/-! ## The interpreted `fib` body, `directthreaded4.c`

Same frame shape as `directthreaded3.c`, but the literal loads are the
inlined CONST_1/CONST_2 opcodes; execution reaches the RET at index 28. -/

theorem dt4_body : ∀ N n b m, n % TWO64 < N → m b = n →
    ∃ m', Reaches (stepDT dt4Fib) ⟨0, b + 4, b + 1, m⟩ ⟨28, b + 5, b + 1, m'⟩ ∧
      m' (b + 4) = fibW n ∧ ∀ x, x < b + 4 → m' x = m x := by
  intro N
  induction N with
  | zero => exact fun n b m hN _ => absurd hN (Nat.not_lt_zero _)
  | succ N ih =>
    intro n b m hN hm
    subst hm
    obtain ⟨m1, s1, v1, f1⟩ :
        ∃ mm, stepDT dt4Fib ⟨0, b + 4, b + 1, m⟩ = .next ⟨2, b + 5, b + 1, mm⟩ ∧
          mm (b + 4) = m b ∧ ∀ x, x < b + 4 → mm x = m x :=
      ⟨_, (stepDT_load (show (0:Nat) < dt4Fib.length by decide)
            (show dt4Fib.getD 0 0 = LOAD by decide)).trans
          (dtLoad_eq (show (1:Nat) < dt4Fib.length by decide)
            (show dt4Fib.getD 1 0 = M1 by decide)
            (show ((b + 1 : Nat) : Int) + sVal M1 = ((b : Nat) : Int) by
              rw [sVal_M1]; omega)),
        by simp [wr], fun x hx => by simp [wr, show x ≠ b + 4 from by omega]⟩
    obtain ⟨m2, s2, v2a, v2b, f2⟩ :
        ∃ mm, stepDT dt4Fib ⟨2, b + 5, b + 1, m1⟩ = .next ⟨3, b + 6, b + 1, mm⟩ ∧
          mm (b + 4) = m b ∧ mm (b + 5) = 2 ∧ ∀ x, x < b + 4 → mm x = m x :=
      ⟨_, (stepDT_const2 (show (2:Nat) < dt4Fib.length by decide)
            (show dt4Fib.getD 2 0 = CONST_2 by decide)).trans doConst_eq,
        by simp [wr]; exact v1, by simp [wr],
        fun x hx => by simp [wr, show x ≠ b + 5 from by omega, f1 x hx]⟩
    obtain ⟨m3, s3, v3, f3⟩ :
        ∃ mm, stepDT dt4Fib ⟨3, b + 6, b + 1, m2⟩ = .next ⟨5, b + 5, b + 1, mm⟩ ∧
          mm (b + 4) = (if sVal (m b) < 2 then 1 else 0) ∧
          ∀ x, x < b + 4 → mm x = m x :=
      ⟨_, (stepDT_prim (show (3:Nat) < dt4Fib.length by decide)
            (show dt4Fib.getD 3 0 = PRIM by decide)).trans
          (doPrim_eq (show (4:Nat) < dt4Fib.length by decide)
            (show dt4Fib.getD 4 0 = 0 by decide) (by decide) (show (2:Nat) ≤ b + 6 by omega)),
        by simp [wr]; rw [v2a, v2b]; simp [primResult, sVal_two],
        fun x hx => by simp [wr, show x ≠ b + 4 from by omega, f2 x hx]⟩
    by_cases hb : sVal (m b) < 2
    · -- base path: JT taken to the CONST_1 at index 27
      have hv3 : m3 (b + 4) = 1 := by rw [v3, if_pos hb]
      have s4 : stepDT dt4Fib ⟨5, b + 5, b + 1, m3⟩ = .next ⟨27, b + 4, b + 1, m3⟩ :=
        (stepDT_jt (show (5:Nat) < dt4Fib.length by decide)
            (show dt4Fib.getD 5 0 = JT by decide)).trans
          (doJt_true_eq (show (6:Nat) < dt4Fib.length by decide)
            (show (1:Nat) ≤ b + 5 by omega) (show dt4Fib.getD 6 0 = 22 by decide)
            (show m3 (b + 4) ≠ 0 by simp [hv3])
            (show ((5:Nat) : Int) + 2 + sVal 22 - 2 = ((27:Nat) : Int) by decide))
      obtain ⟨m4, s5, v5, f5⟩ :
          ∃ mm, stepDT dt4Fib ⟨27, b + 4, b + 1, m3⟩ = .next ⟨28, b + 5, b + 1, mm⟩ ∧
            mm (b + 4) = 1 ∧ ∀ x, x < b + 4 → mm x = m x :=
        ⟨_, (stepDT_const1 (show (27:Nat) < dt4Fib.length by decide)
              (show dt4Fib.getD 27 0 = CONST_1 by decide)).trans doConst_eq,
          by simp [wr],
          fun x hx => by simp [wr, show x ≠ b + 4 from by omega, f3 x hx]⟩
      refine ⟨m4, ?_, ?_, f5⟩
      · exact reaches_head s1 (reaches_head s2 (reaches_head s3 (reaches_head s4
          (reaches_head s5 (reaches_rfl _ _)))))
      · rw [v5, fibW_base hb]
    · -- recursive path
      have hb2 : 2 ≤ sVal (m b) := not_lt.1 hb
      obtain ⟨g1, g2, g3⟩ := sVal_ge2 hb2
      have hmod := mod_two64_lt (m b)
      have w1eq : wrap (sVal (m b) - 1) = m b % TWO64 - 1 := wrap_sval_sub_one hb2
      have w2eq : wrap (sVal (m b) - 2) = m b % TWO64 - 2 := wrap_sval_sub_two hb2
      have hmes1 : wrap (sVal (m b) - 1) % TWO64 < N := by
        rw [w1eq, Nat.mod_eq_of_lt (by omega)]; omega
      have hmes2 : wrap (sVal (m b) - 2) % TWO64 < N := by
        rw [w2eq, Nat.mod_eq_of_lt (by omega)]; omega
      have hv3 : m3 (b + 4) = 0 := by rw [v3, if_neg hb]
      have s4 : stepDT dt4Fib ⟨5, b + 5, b + 1, m3⟩ = .next ⟨7, b + 4, b + 1, m3⟩ :=
        (stepDT_jt (show (5:Nat) < dt4Fib.length by decide)
            (show dt4Fib.getD 5 0 = JT by decide)).trans
          (doJt_false_eq (show (6:Nat) < dt4Fib.length by decide)
            (show (1:Nat) ≤ b + 5 by omega) (show m3 (b + 4) = 0 from hv3))
      obtain ⟨m4, s5, v4, f4⟩ :
          ∃ mm, stepDT dt4Fib ⟨7, b + 4, b + 1, m3⟩ = .next ⟨9, b + 5, b + 1, mm⟩ ∧
            mm (b + 4) = m b ∧ ∀ x, x < b + 4 → mm x = m x :=
        ⟨_, (stepDT_load (show (7:Nat) < dt4Fib.length by decide)
              (show dt4Fib.getD 7 0 = LOAD by decide)).trans
            (dtLoad_eq (show (8:Nat) < dt4Fib.length by decide)
              (show dt4Fib.getD 8 0 = M1 by decide)
              (show ((b + 1 : Nat) : Int) + sVal M1 = ((b : Nat) : Int) by
                rw [sVal_M1]; omega)),
          by simp [wr]; exact f3 _ (by omega),
          fun x hx => by simp [wr, show x ≠ b + 4 from by omega, f3 x hx]⟩
      obtain ⟨m5, s6, v5a, v5b, f5⟩ :
          ∃ mm, stepDT dt4Fib ⟨9, b + 5, b + 1, m4⟩ = .next ⟨10, b + 6, b + 1, mm⟩ ∧
            mm (b + 4) = m b ∧ mm (b + 5) = 1 ∧ ∀ x, x < b + 4 → mm x = m x :=
        ⟨_, (stepDT_const1 (show (9:Nat) < dt4Fib.length by decide)
              (show dt4Fib.getD 9 0 = CONST_1 by decide)).trans doConst_eq,
          by simp [wr]; exact v4, by simp [wr],
          fun x hx => by simp [wr, show x ≠ b + 5 from by omega, f4 x hx]⟩
      obtain ⟨m6, s7, v6, f6⟩ :
          ∃ mm, stepDT dt4Fib ⟨10, b + 6, b + 1, m5⟩ = .next ⟨12, b + 5, b + 1, mm⟩ ∧
            mm (b + 4) = wrap (sVal (m b) - 1) ∧ ∀ x, x < b + 4 → mm x = m x :=
        ⟨_, (stepDT_prim (show (10:Nat) < dt4Fib.length by decide)
              (show dt4Fib.getD 10 0 = PRIM by decide)).trans
            (doPrim_eq (show (11:Nat) < dt4Fib.length by decide)
              (show dt4Fib.getD 11 0 = 1 by decide) (by decide)
              (show (2:Nat) ≤ b + 6 by omega)),
          by simp [wr]; rw [v5a, v5b]; simp [primResult, sVal_one],
          fun x hx => by simp [wr, show x ≠ b + 4 from by omega, f5 x hx]⟩
      obtain ⟨m7, s8, v7a, v7b, v7c, v7d, f7⟩ :
          ∃ mm, stepDT dt4Fib ⟨12, b + 5, b + 1, m6⟩ = .next ⟨0, b + 8, b + 5, mm⟩ ∧
            mm (b + 4) = wrap (sVal (m b) - 1) ∧ mm (b + 7) = 1 ∧ mm (b + 6) = 16 ∧
            mm (b + 5) = b + 1 ∧ ∀ x, x < b + 4 → mm x = m x :=
        ⟨_, (stepDT_call (show (12:Nat) < dt4Fib.length by decide)
              (show dt4Fib.getD 12 0 = CALL by decide)).trans
            (dtCall_eq (show (14:Nat) < dt4Fib.length by decide)
              (show dt4Fib.getD 13 0 = 0 by decide) (show dt4Fib.getD 14 0 = 1 by decide)),
          by simp [wr, show b + 4 ≠ b + 5 from by omega, show b + 4 ≠ b + 6 from by omega,
            show b + 4 ≠ b + 7 from by omega]
             exact v6,
          by simp [wr], by simp [wr, ipStore], by simp [wr],
          fun x hx => by
            simp [wr, show x ≠ b + 5 from by omega, show x ≠ b + 6 from by omega,
              show x ≠ b + 7 from by omega, f6 x hx]⟩
      obtain ⟨mk1, hR1, hV1, hP1⟩ := ih (wrap (sVal (m b) - 1)) (b + 4) m7 hmes1 v7a
      obtain ⟨m8, s9, v8, f8⟩ :
          ∃ mm, stepDT dt4Fib ⟨28, b + 9, b + 5, mk1⟩ = .next ⟨15, b + 5, b + 1, mm⟩ ∧
            mm (b + 4) = fibW (wrap (sVal (m b) - 1)) ∧
            ∀ x, x < b + 4 → mm x = m x :=
        ⟨_, (stepDT_ret (show (28:Nat) < dt4Fib.length by decide)
              (show dt4Fib.getD 28 0 = RET by decide)).trans
            (doRet3_next_eq (show (1:Nat) ≤ b + 9 by omega)
              (show mk1 (b + 7) = 1 by rw [hP1 _ (by omega)]; exact v7b)
              (show (1:Nat) ≤ b + 5 by omega)
              (show mk1 (b + 6) = 15 + 1 by rw [hP1 _ (by omega)]; exact v7c)
              (show mk1 (b + 5) = b + 1 by rw [hP1 _ (by omega)]; exact v7d)),
          by simp [wr]; exact hV1,
          fun x hx => by
            simp [wr, show x ≠ b + 4 from by omega]
            rw [hP1 _ (by omega)]; exact f7 x hx⟩
      obtain ⟨m9, s10, v9a, v9b, f9⟩ :
          ∃ mm, stepDT dt4Fib ⟨15, b + 5, b + 1, m8⟩ = .next ⟨17, b + 6, b + 1, mm⟩ ∧
            mm (b + 5) = m b ∧ mm (b + 4) = fibW (wrap (sVal (m b) - 1)) ∧
            ∀ x, x < b + 4 → mm x = m x :=
        ⟨_, (stepDT_load (show (15:Nat) < dt4Fib.length by decide)
              (show dt4Fib.getD 15 0 = LOAD by decide)).trans
            (dtLoad_eq (show (16:Nat) < dt4Fib.length by decide)
              (show dt4Fib.getD 16 0 = M1 by decide)
              (show ((b + 1 : Nat) : Int) + sVal M1 = ((b : Nat) : Int) by
                rw [sVal_M1]; omega)),
          by simp [wr]; exact f8 _ (by omega), by simp [wr]; exact v8,
          fun x hx => by simp [wr, show x ≠ b + 5 from by omega, f8 x hx]⟩
      obtain ⟨m10, s11, v10a, v10b, v10c, f10⟩ :
          ∃ mm, stepDT dt4Fib ⟨17, b + 6, b + 1, m9⟩ = .next ⟨18, b + 7, b + 1, mm⟩ ∧
            mm (b + 5) = m b ∧ mm (b + 6) = 2 ∧
            mm (b + 4) = fibW (wrap (sVal (m b) - 1)) ∧
            ∀ x, x < b + 4 → mm x = m x :=
        ⟨_, (stepDT_const2 (show (17:Nat) < dt4Fib.length by decide)
              (show dt4Fib.getD 17 0 = CONST_2 by decide)).trans doConst_eq,
          by simp [wr]; exact v9a, by simp [wr], by simp [wr]; exact v9b,
          fun x hx => by simp [wr, show x ≠ b + 6 from by omega, f9 x hx]⟩
      obtain ⟨m11, s12, v11, v11b, f11⟩ :
          ∃ mm, stepDT dt4Fib ⟨18, b + 7, b + 1, m10⟩ = .next ⟨20, b + 6, b + 1, mm⟩ ∧
            mm (b + 5) = wrap (sVal (m b) - 2) ∧
            mm (b + 4) = fibW (wrap (sVal (m b) - 1)) ∧
            ∀ x, x < b + 4 → mm x = m x :=
        ⟨_, (stepDT_prim (show (18:Nat) < dt4Fib.length by decide)
              (show dt4Fib.getD 18 0 = PRIM by decide)).trans
            (doPrim_eq (show (19:Nat) < dt4Fib.length by decide)
              (show dt4Fib.getD 19 0 = 1 by decide) (by decide)
              (show (2:Nat) ≤ b + 7 by omega)),
          by simp [wr]; rw [v10a, v10b]; simp [primResult, sVal_two],
          by simp [wr]; exact v10c,
          fun x hx => by simp [wr, show x ≠ b + 5 from by omega, f10 x hx]⟩
      obtain ⟨m12, s13, v12a, v12b, v12c, v12d, v12e, f12⟩ :
          ∃ mm, stepDT dt4Fib ⟨20, b + 6, b + 1, m11⟩ = .next ⟨0, b + 9, b + 6, mm⟩ ∧
            mm (b + 5) = wrap (sVal (m b) - 2) ∧ mm (b + 8) = 1 ∧ mm (b + 7) = 24 ∧
            mm (b + 6) = b + 1 ∧ mm (b + 4) = fibW (wrap (sVal (m b) - 1)) ∧
            ∀ x, x < b + 4 → mm x = m x :=
        ⟨_, (stepDT_call (show (20:Nat) < dt4Fib.length by decide)
              (show dt4Fib.getD 20 0 = CALL by decide)).trans
            (dtCall_eq (show (22:Nat) < dt4Fib.length by decide)
              (show dt4Fib.getD 21 0 = 0 by decide) (show dt4Fib.getD 22 0 = 1 by decide)),
          by simp [wr, show b + 5 ≠ b + 6 from by omega, show b + 5 ≠ b + 7 from by omega,
            show b + 5 ≠ b + 8 from by omega]
             exact v11,
          by simp [wr], by simp [wr, ipStore], by simp [wr],
          by simp [wr, show b + 4 ≠ b + 6 from by omega, show b + 4 ≠ b + 7 from by omega,
            show b + 4 ≠ b + 8 from by omega]
             exact v11b,
          fun x hx => by
            simp [wr, show x ≠ b + 6 from by omega, show x ≠ b + 7 from by omega,
              show x ≠ b + 8 from by omega, f11 x hx]⟩
      obtain ⟨mk2, hR2, hV2, hP2⟩ := ih (wrap (sVal (m b) - 2)) (b + 5) m12 hmes2 v12a
      obtain ⟨m13, s14, v13a, v13b, f13⟩ :
          ∃ mm, stepDT dt4Fib ⟨28, b + 10, b + 6, mk2⟩ = .next ⟨23, b + 6, b + 1, mm⟩ ∧
            mm (b + 5) = fibW (wrap (sVal (m b) - 2)) ∧
            mm (b + 4) = fibW (wrap (sVal (m b) - 1)) ∧
            ∀ x, x < b + 4 → mm x = m x :=
        ⟨_, (stepDT_ret (show (28:Nat) < dt4Fib.length by decide)
              (show dt4Fib.getD 28 0 = RET by decide)).trans
            (doRet3_next_eq (show (1:Nat) ≤ b + 10 by omega)
              (show mk2 (b + 8) = 1 by rw [hP2 _ (by omega)]; exact v12b)
              (show (1:Nat) ≤ b + 6 by omega)
              (show mk2 (b + 7) = 23 + 1 by rw [hP2 _ (by omega)]; exact v12c)
              (show mk2 (b + 6) = b + 1 by rw [hP2 _ (by omega)]; exact v12d)),
          by simp [wr]; exact hV2,
          by simp [wr, show b + 4 ≠ b + 5 from by omega]
             rw [hP2 _ (by omega)]; exact v12e,
          fun x hx => by
            simp [wr, show x ≠ b + 5 from by omega]
            rw [hP2 _ (by omega)]; exact f12 x hx⟩
      obtain ⟨m14, s15, v14, f14⟩ :
          ∃ mm, stepDT dt4Fib ⟨23, b + 6, b + 1, m13⟩ = .next ⟨25, b + 5, b + 1, mm⟩ ∧
            mm (b + 4) = wrap (sVal (fibW (wrap (sVal (m b) - 1))) +
              sVal (fibW (wrap (sVal (m b) - 2)))) ∧
            ∀ x, x < b + 4 → mm x = m x :=
        ⟨_, (stepDT_prim (show (23:Nat) < dt4Fib.length by decide)
              (show dt4Fib.getD 23 0 = PRIM by decide)).trans
            (doPrim_eq (show (24:Nat) < dt4Fib.length by decide)
              (show dt4Fib.getD 24 0 = 2 by decide) (by decide)
              (show (2:Nat) ≤ b + 6 by omega)),
          by simp [wr]; rw [v13b, v13a]; simp [primResult],
          fun x hx => by simp [wr, show x ≠ b + 4 from by omega, f13 x hx]⟩
      have s16 : stepDT dt4Fib ⟨25, b + 5, b + 1, m14⟩ = .next ⟨28, b + 5, b + 1, m14⟩ :=
        (stepDT_jmp (show (25:Nat) < dt4Fib.length by decide)
            (show dt4Fib.getD 25 0 = JMP by decide)).trans
          (doJmp_eq (show (26:Nat) < dt4Fib.length by decide)
            (show dt4Fib.getD 26 0 = 3 by decide)
            (show ((25:Nat) : Int) + 2 + sVal 3 - 2 = ((28:Nat) : Int) by decide))
      refine ⟨m14, ?_, ?_, f14⟩
      · exact reaches_head s1 (reaches_head s2 (reaches_head s3 (reaches_head s4
          (reaches_head s5 (reaches_head s6 (reaches_head s7 (reaches_head s8
            (reaches_trans hR1 (reaches_head s9 (reaches_head s10 (reaches_head s11
              (reaches_head s12 (reaches_head s13 (reaches_trans hR2 (reaches_head s14
                (reaches_head s15 (reaches_head s16 (reaches_rfl _ _))))))))))))))))))
      · rw [v14, fibW_rec hb2]

/-! ## The interpreted `fib` body, `comboinstructions.c`

Same frame shape as `directthreaded3.c`; the two subtractions are now the
SUB1 combo instruction (once for n-1, twice for n-2); execution reaches the
RET at index 25. -/

theorem combo_body : ∀ N n b m, n % TWO64 < N → m b = n →
    ∃ m', Reaches (stepDT comboFib) ⟨0, b + 4, b + 1, m⟩ ⟨25, b + 5, b + 1, m'⟩ ∧
      m' (b + 4) = fibW n ∧ ∀ x, x < b + 4 → m' x = m x := by
  intro N
  induction N with
  | zero => exact fun n b m hN _ => absurd hN (Nat.not_lt_zero _)
  | succ N ih =>
    intro n b m hN hm
    subst hm
    obtain ⟨m1, s1, v1, f1⟩ :
        ∃ mm, stepDT comboFib ⟨0, b + 4, b + 1, m⟩ = .next ⟨2, b + 5, b + 1, mm⟩ ∧
          mm (b + 4) = m b ∧ ∀ x, x < b + 4 → mm x = m x :=
      ⟨_, (stepDT_load (show (0:Nat) < comboFib.length by decide)
            (show comboFib.getD 0 0 = LOAD by decide)).trans
          (dtLoad_eq (show (1:Nat) < comboFib.length by decide)
            (show comboFib.getD 1 0 = M1 by decide)
            (show ((b + 1 : Nat) : Int) + sVal M1 = ((b : Nat) : Int) by
              rw [sVal_M1]; omega)),
        by simp [wr], fun x hx => by simp [wr, show x ≠ b + 4 from by omega]⟩
    obtain ⟨m2, s2, v2a, v2b, f2⟩ :
        ∃ mm, stepDT comboFib ⟨2, b + 5, b + 1, m1⟩ = .next ⟨3, b + 6, b + 1, mm⟩ ∧
          mm (b + 4) = m b ∧ mm (b + 5) = 2 ∧ ∀ x, x < b + 4 → mm x = m x :=
      ⟨_, (stepDT_const2 (show (2:Nat) < comboFib.length by decide)
            (show comboFib.getD 2 0 = CONST_2 by decide)).trans doConst_eq,
        by simp [wr]; exact v1, by simp [wr],
        fun x hx => by simp [wr, show x ≠ b + 5 from by omega, f1 x hx]⟩
    obtain ⟨m3, s3, v3, f3⟩ :
        ∃ mm, stepDT comboFib ⟨3, b + 6, b + 1, m2⟩ = .next ⟨5, b + 5, b + 1, mm⟩ ∧
          mm (b + 4) = (if sVal (m b) < 2 then 1 else 0) ∧
          ∀ x, x < b + 4 → mm x = m x :=
      ⟨_, (stepDT_prim (show (3:Nat) < comboFib.length by decide)
            (show comboFib.getD 3 0 = PRIM by decide)).trans
          (doPrim_eq (show (4:Nat) < comboFib.length by decide)
            (show comboFib.getD 4 0 = 0 by decide) (by decide)
            (show (2:Nat) ≤ b + 6 by omega)),
        by simp [wr]; rw [v2a, v2b]; simp [primResult, sVal_two],
        fun x hx => by simp [wr, show x ≠ b + 4 from by omega, f2 x hx]⟩
    by_cases hb : sVal (m b) < 2
    · -- base path: JT taken to the CONST_1 at index 24
      have hv3 : m3 (b + 4) = 1 := by rw [v3, if_pos hb]
      have s4 : stepDT comboFib ⟨5, b + 5, b + 1, m3⟩ = .next ⟨24, b + 4, b + 1, m3⟩ :=
        (stepDT_jt (show (5:Nat) < comboFib.length by decide)
            (show comboFib.getD 5 0 = JT by decide)).trans
          (doJt_true_eq (show (6:Nat) < comboFib.length by decide)
            (show (1:Nat) ≤ b + 5 by omega) (show comboFib.getD 6 0 = 19 by decide)
            (show m3 (b + 4) ≠ 0 by simp [hv3])
            (show ((5:Nat) : Int) + 2 + sVal 19 - 2 = ((24:Nat) : Int) by decide))
      obtain ⟨m4, s5, v5, f5⟩ :
          ∃ mm, stepDT comboFib ⟨24, b + 4, b + 1, m3⟩ = .next ⟨25, b + 5, b + 1, mm⟩ ∧
            mm (b + 4) = 1 ∧ ∀ x, x < b + 4 → mm x = m x :=
        ⟨_, (stepDT_const1 (show (24:Nat) < comboFib.length by decide)
              (show comboFib.getD 24 0 = CONST_1 by decide)).trans doConst_eq,
          by simp [wr],
          fun x hx => by simp [wr, show x ≠ b + 4 from by omega, f3 x hx]⟩
      refine ⟨m4, ?_, ?_, f5⟩
      · exact reaches_head s1 (reaches_head s2 (reaches_head s3 (reaches_head s4
          (reaches_head s5 (reaches_rfl _ _)))))
      · rw [v5, fibW_base hb]
    · -- recursive path
      have hb2 : 2 ≤ sVal (m b) := not_lt.1 hb
      obtain ⟨g1, g2, g3⟩ := sVal_ge2 hb2
      have hmod := mod_two64_lt (m b)
      have w1eq : wrap (sVal (m b) - 1) = m b % TWO64 - 1 := wrap_sval_sub_one hb2
      have w2eq : wrap (sVal (m b) - 2) = m b % TWO64 - 2 := wrap_sval_sub_two hb2
      have hmes1 : wrap (sVal (m b) - 1) % TWO64 < N := by
        rw [w1eq, Nat.mod_eq_of_lt (by omega)]; omega
      have hmes2 : wrap (sVal (m b) - 2) % TWO64 < N := by
        rw [w2eq, Nat.mod_eq_of_lt (by omega)]; omega
      have hv3 : m3 (b + 4) = 0 := by rw [v3, if_neg hb]
      have s4 : stepDT comboFib ⟨5, b + 5, b + 1, m3⟩ = .next ⟨7, b + 4, b + 1, m3⟩ :=
        (stepDT_jt (show (5:Nat) < comboFib.length by decide)
            (show comboFib.getD 5 0 = JT by decide)).trans
          (doJt_false_eq (show (6:Nat) < comboFib.length by decide)
            (show (1:Nat) ≤ b + 5 by omega) (show m3 (b + 4) = 0 from hv3))
      obtain ⟨m4, s5, v4, f4⟩ :
          ∃ mm, stepDT comboFib ⟨7, b + 4, b + 1, m3⟩ = .next ⟨9, b + 5, b + 1, mm⟩ ∧
            mm (b + 4) = m b ∧ ∀ x, x < b + 4 → mm x = m x :=
        ⟨_, (stepDT_load (show (7:Nat) < comboFib.length by decide)
              (show comboFib.getD 7 0 = LOAD by decide)).trans
            (dtLoad_eq (show (8:Nat) < comboFib.length by decide)
              (show comboFib.getD 8 0 = M1 by decide)
              (show ((b + 1 : Nat) : Int) + sVal M1 = ((b : Nat) : Int) by
                rw [sVal_M1]; omega)),
          by simp [wr]; exact f3 _ (by omega),
          fun x hx => by simp [wr, show x ≠ b + 4 from by omega, f3 x hx]⟩
      obtain ⟨m5, s6, v5, f5⟩ :
          ∃ mm, stepDT comboFib ⟨9, b + 5, b + 1, m4⟩ = .next ⟨10, b + 5, b + 1, mm⟩ ∧
            mm (b + 4) = wrap (sVal (m b) - 1) ∧ ∀ x, x < b + 4 → mm x = m x :=
        ⟨_, (stepDT_sub1 (show (9:Nat) < comboFib.length by decide)
              (show comboFib.getD 9 0 = SUB1 by decide)).trans
            (dtSub1_eq (show (1:Nat) ≤ b + 5 by omega)),
          by simp [wr]; rw [v4],
          fun x hx => by simp [wr, show x ≠ b + 4 from by omega, f4 x hx]⟩
      obtain ⟨m6, s7, v6a, v6b, v6c, v6d, f6⟩ :
          ∃ mm, stepDT comboFib ⟨10, b + 5, b + 1, m5⟩ = .next ⟨0, b + 8, b + 5, mm⟩ ∧
            mm (b + 4) = wrap (sVal (m b) - 1) ∧ mm (b + 7) = 1 ∧ mm (b + 6) = 14 ∧
            mm (b + 5) = b + 1 ∧ ∀ x, x < b + 4 → mm x = m x :=
        ⟨_, (stepDT_call (show (10:Nat) < comboFib.length by decide)
              (show comboFib.getD 10 0 = CALL by decide)).trans
            (dtCall_eq (show (12:Nat) < comboFib.length by decide)
              (show comboFib.getD 11 0 = 0 by decide)
              (show comboFib.getD 12 0 = 1 by decide)),
          by simp [wr, show b + 4 ≠ b + 5 from by omega, show b + 4 ≠ b + 6 from by omega,
            show b + 4 ≠ b + 7 from by omega]
             exact v5,
          by simp [wr], by simp [wr, ipStore], by simp [wr],
          fun x hx => by
            simp [wr, show x ≠ b + 5 from by omega, show x ≠ b + 6 from by omega,
              show x ≠ b + 7 from by omega, f5 x hx]⟩
      obtain ⟨mk1, hR1, hV1, hP1⟩ := ih (wrap (sVal (m b) - 1)) (b + 4) m6 hmes1 v6a
      obtain ⟨m7, s8, v7, f7⟩ :
          ∃ mm, stepDT comboFib ⟨25, b + 9, b + 5, mk1⟩ = .next ⟨13, b + 5, b + 1, mm⟩ ∧
            mm (b + 4) = fibW (wrap (sVal (m b) - 1)) ∧
            ∀ x, x < b + 4 → mm x = m x :=
        ⟨_, (stepDT_ret (show (25:Nat) < comboFib.length by decide)
              (show comboFib.getD 25 0 = RET by decide)).trans
            (doRet3_next_eq (show (1:Nat) ≤ b + 9 by omega)
              (show mk1 (b + 7) = 1 by rw [hP1 _ (by omega)]; exact v6b)
              (show (1:Nat) ≤ b + 5 by omega)
              (show mk1 (b + 6) = 13 + 1 by rw [hP1 _ (by omega)]; exact v6c)
              (show mk1 (b + 5) = b + 1 by rw [hP1 _ (by omega)]; exact v6d)),
          by simp [wr]; exact hV1,
          fun x hx => by
            simp [wr, show x ≠ b + 4 from by omega]
            rw [hP1 _ (by omega)]; exact f6 x hx⟩
      obtain ⟨m8, s9, v8a, v8b, f8⟩ :
          ∃ mm, stepDT comboFib ⟨13, b + 5, b + 1, m7⟩ = .next ⟨15, b + 6, b + 1, mm⟩ ∧
            mm (b + 5) = m b ∧ mm (b + 4) = fibW (wrap (sVal (m b) - 1)) ∧
            ∀ x, x < b + 4 → mm x = m x :=
        ⟨_, (stepDT_load (show (13:Nat) < comboFib.length by decide)
              (show comboFib.getD 13 0 = LOAD by decide)).trans
            (dtLoad_eq (show (14:Nat) < comboFib.length by decide)
              (show comboFib.getD 14 0 = M1 by decide)
              (show ((b + 1 : Nat) : Int) + sVal M1 = ((b : Nat) : Int) by
                rw [sVal_M1]; omega)),
          by simp [wr]; exact f7 _ (by omega), by simp [wr]; exact v7,
          fun x hx => by simp [wr, show x ≠ b + 5 from by omega, f7 x hx]⟩
      obtain ⟨m9, s10, v9, v9b, f9⟩ :
          ∃ mm, stepDT comboFib ⟨15, b + 6, b + 1, m8⟩ = .next ⟨16, b + 6, b + 1, mm⟩ ∧
            mm (b + 5) = wrap (sVal (m b) - 1) ∧
            mm (b + 4) = fibW (wrap (sVal (m b) - 1)) ∧
            ∀ x, x < b + 4 → mm x = m x :=
        ⟨_, (stepDT_sub1 (show (15:Nat) < comboFib.length by decide)
              (show comboFib.getD 15 0 = SUB1 by decide)).trans
            (dtSub1_eq (show (1:Nat) ≤ b + 6 by omega)),
          by simp [wr]; rw [v8a], by simp [wr]; exact v8b,
          fun x hx => by simp [wr, show x ≠ b + 5 from by omega, f8 x hx]⟩
      obtain ⟨m10, s11, v10, v10b, f10⟩ :
          ∃ mm, stepDT comboFib ⟨16, b + 6, b + 1, m9⟩ = .next ⟨17, b + 6, b + 1, mm⟩ ∧
            mm (b + 5) = wrap (sVal (m b) - 2) ∧
            mm (b + 4) = fibW (wrap (sVal (m b) - 1)) ∧
            ∀ x, x < b + 4 → mm x = m x :=
        ⟨_, (stepDT_sub1 (show (16:Nat) < comboFib.length by decide)
              (show comboFib.getD 16 0 = SUB1 by decide)).trans
            (dtSub1_eq (show (1:Nat) ≤ b + 6 by omega)),
          by simp [wr]; rw [v9]; exact wrap_sub_one_sub_one hb2,
          by simp [wr]; exact v9b,
          fun x hx => by simp [wr, show x ≠ b + 5 from by omega, f9 x hx]⟩
      obtain ⟨m11, s12, v11a, v11b, v11c, v11d, v11e, f11⟩ :
          ∃ mm, stepDT comboFib ⟨17, b + 6, b + 1, m10⟩ = .next ⟨0, b + 9, b + 6, mm⟩ ∧
            mm (b + 5) = wrap (sVal (m b) - 2) ∧ mm (b + 8) = 1 ∧ mm (b + 7) = 21 ∧
            mm (b + 6) = b + 1 ∧ mm (b + 4) = fibW (wrap (sVal (m b) - 1)) ∧
            ∀ x, x < b + 4 → mm x = m x :=
        ⟨_, (stepDT_call (show (17:Nat) < comboFib.length by decide)
              (show comboFib.getD 17 0 = CALL by decide)).trans
            (dtCall_eq (show (19:Nat) < comboFib.length by decide)
              (show comboFib.getD 18 0 = 0 by decide)
              (show comboFib.getD 19 0 = 1 by decide)),
          by simp [wr, show b + 5 ≠ b + 6 from by omega, show b + 5 ≠ b + 7 from by omega,
            show b + 5 ≠ b + 8 from by omega]
             exact v10,
          by simp [wr], by simp [wr, ipStore], by simp [wr],
          by simp [wr, show b + 4 ≠ b + 6 from by omega, show b + 4 ≠ b + 7 from by omega,
            show b + 4 ≠ b + 8 from by omega]
             exact v10b,
          fun x hx => by
            simp [wr, show x ≠ b + 6 from by omega, show x ≠ b + 7 from by omega,
              show x ≠ b + 8 from by omega, f10 x hx]⟩
      obtain ⟨mk2, hR2, hV2, hP2⟩ := ih (wrap (sVal (m b) - 2)) (b + 5) m11 hmes2 v11a
      obtain ⟨m12, s13, v12a, v12b, f12⟩ :
          ∃ mm, stepDT comboFib ⟨25, b + 10, b + 6, mk2⟩ = .next ⟨20, b + 6, b + 1, mm⟩ ∧
            mm (b + 5) = fibW (wrap (sVal (m b) - 2)) ∧
            mm (b + 4) = fibW (wrap (sVal (m b) - 1)) ∧
            ∀ x, x < b + 4 → mm x = m x :=
        ⟨_, (stepDT_ret (show (25:Nat) < comboFib.length by decide)
              (show comboFib.getD 25 0 = RET by decide)).trans
            (doRet3_next_eq (show (1:Nat) ≤ b + 10 by omega)
              (show mk2 (b + 8) = 1 by rw [hP2 _ (by omega)]; exact v11b)
              (show (1:Nat) ≤ b + 6 by omega)
              (show mk2 (b + 7) = 20 + 1 by rw [hP2 _ (by omega)]; exact v11c)
              (show mk2 (b + 6) = b + 1 by rw [hP2 _ (by omega)]; exact v11d)),
          by simp [wr]; exact hV2,
          by simp [wr, show b + 4 ≠ b + 5 from by omega]
             rw [hP2 _ (by omega)]; exact v11e,
          fun x hx => by
            simp [wr, show x ≠ b + 5 from by omega]
            rw [hP2 _ (by omega)]; exact f11 x hx⟩
      obtain ⟨m13, s14, v13, f13⟩ :
          ∃ mm, stepDT comboFib ⟨20, b + 6, b + 1, m12⟩ = .next ⟨22, b + 5, b + 1, mm⟩ ∧
            mm (b + 4) = wrap (sVal (fibW (wrap (sVal (m b) - 1))) +
              sVal (fibW (wrap (sVal (m b) - 2)))) ∧
            ∀ x, x < b + 4 → mm x = m x :=
        ⟨_, (stepDT_prim (show (20:Nat) < comboFib.length by decide)
              (show comboFib.getD 20 0 = PRIM by decide)).trans
            (doPrim_eq (show (21:Nat) < comboFib.length by decide)
              (show comboFib.getD 21 0 = 2 by decide) (by decide)
              (show (2:Nat) ≤ b + 6 by omega)),
          by simp [wr]; rw [v12b, v12a]; simp [primResult],
          fun x hx => by simp [wr, show x ≠ b + 4 from by omega, f12 x hx]⟩
      have s15 : stepDT comboFib ⟨22, b + 5, b + 1, m13⟩ = .next ⟨25, b + 5, b + 1, m13⟩ :=
        (stepDT_jmp (show (22:Nat) < comboFib.length by decide)
            (show comboFib.getD 22 0 = JMP by decide)).trans
          (doJmp_eq (show (23:Nat) < comboFib.length by decide)
            (show comboFib.getD 23 0 = 3 by decide)
            (show ((22:Nat) : Int) + 2 + sVal 3 - 2 = ((25:Nat) : Int) by decide))
      refine ⟨m13, ?_, ?_, f13⟩
      · exact reaches_head s1 (reaches_head s2 (reaches_head s3 (reaches_head s4
          (reaches_head s5 (reaches_head s6 (reaches_head s7 (reaches_trans hR1
            (reaches_head s8 (reaches_head s9 (reaches_head s10 (reaches_head s11
              (reaches_head s12 (reaches_trans hR2 (reaches_head s13 (reaches_head s14
                (reaches_head s15 (reaches_rfl _ _)))))))))))))))))
      · rw [v13, fibW_rec hb2]

/-! ## End-to-end execution of the built-in `fib` programs -/

theorem wc_exec_fib (n : Nat) (m : Nat → Nat) :
    Executes (stepWC wcFib) (wcInit n m) (fibW n) := by
  obtain ⟨m', hR, hV, hP⟩ := wc_body (n % TWO64 + 1) n 0 (wr (wr (wr m 0 0) 1 0) 2 n)
    (Nat.lt_succ_self _) (by simp [wr])
  have hV' : m' 3 = fibW n := hV
  have hfinal : stepWC wcFib ⟨30, 4, 0, m'⟩ = .halt (m' 3) :=
    (stepWC_ret (show (30:Nat) < wcFib.length by decide)
        (show wcFib.getD 30 0 = RET by decide)).trans
      (wcRet_halt_eq (show (1:Nat) ≤ 4 by omega)
        (show m' (0 + 1) = 0 by rw [hP _ (by omega)]; simp [wr]))
  exact executes_of_reaches hR (hV' ▸ executes_halt hfinal)

theorem hc2_exec_fib (n : Nat) (m : Nat → Nat) :
    Executes (stepHC2 hc2Fib) (hc2Init n m) (fibW n) := by
  obtain ⟨m', hR, hV, hP⟩ := hc2_body (n % TWO64 + 1) n 0
    (wr (wr (wr (wr m 0 0) 1 0) 2 0) 3 n) (Nat.lt_succ_self _) (by simp [wr])
  have hV' : m' 4 = fibW n := hV
  have hfinal : stepHC2 hc2Fib ⟨32, 5, 0, m'⟩ = .halt (m' 4) :=
    (stepHC2_ret (show (32:Nat) < hc2Fib.length by decide)
        (show hc2Fib.getD 32 0 = RET by decide)).trans
      (doRet3_halt_eq (show (1:Nat) ≤ 5 by omega)
        (show m' (0 + 2) ≤ 0 by rw [hP _ (by omega)]; simp [wr])
        (show m' (0 + 1) = 0 by rw [hP _ (by omega)]; simp [wr]))
  exact executes_of_reaches hR (hV' ▸ executes_halt hfinal)

theorem dt3_exec_fib (n : Nat) (m : Nat → Nat) :
    Executes (stepDT dt3Fib) (dtInit n m) (fibW n) := by
  obtain ⟨m', hR, hV, hP⟩ := dt3_body (n % TWO64 + 1) n 0
    (wr (wr (wr (wr m 0 n) 1 0) 2 0) 3 0) (Nat.lt_succ_self _) (by simp [wr])
  have hV' : m' 4 = fibW n := hV
  have hfinal : stepDT dt3Fib ⟨32, 5, 1, m'⟩ = .halt (m' 4) :=
    (stepDT_ret (show (32:Nat) < dt3Fib.length by decide)
        (show dt3Fib.getD 32 0 = RET by decide)).trans
      (doRet3_halt_eq (show (1:Nat) ≤ 5 by omega)
        (show m' (1 + 2) ≤ 1 by rw [hP _ (by omega)]; simp [wr])
        (show m' (1 + 1) = 0 by rw [hP _ (by omega)]; simp [wr]))
  exact executes_of_reaches hR (hV' ▸ executes_halt hfinal)

theorem dt4_exec_fib (n : Nat) (m : Nat → Nat) :
    Executes (stepDT dt4Fib) (dtInit n m) (fibW n) := by
  obtain ⟨m', hR, hV, hP⟩ := dt4_body (n % TWO64 + 1) n 0
    (wr (wr (wr (wr m 0 n) 1 0) 2 0) 3 0) (Nat.lt_succ_self _) (by simp [wr])
  have hV' : m' 4 = fibW n := hV
  have hfinal : stepDT dt4Fib ⟨28, 5, 1, m'⟩ = .halt (m' 4) :=
    (stepDT_ret (show (28:Nat) < dt4Fib.length by decide)
        (show dt4Fib.getD 28 0 = RET by decide)).trans
      (doRet3_halt_eq (show (1:Nat) ≤ 5 by omega)
        (show m' (1 + 2) ≤ 1 by rw [hP _ (by omega)]; simp [wr])
        (show m' (1 + 1) = 0 by rw [hP _ (by omega)]; simp [wr]))
  exact executes_of_reaches hR (hV' ▸ executes_halt hfinal)

theorem combo_exec_fib (n : Nat) (m : Nat → Nat) :
    Executes (stepDT comboFib) (dtInit n m) (fibW n) := by
  obtain ⟨m', hR, hV, hP⟩ := combo_body (n % TWO64 + 1) n 0
    (wr (wr (wr (wr m 0 n) 1 0) 2 0) 3 0) (Nat.lt_succ_self _) (by simp [wr])
  have hV' : m' 4 = fibW n := hV
  have hfinal : stepDT comboFib ⟨25, 5, 1, m'⟩ = .halt (m' 4) :=
    (stepDT_ret (show (25:Nat) < comboFib.length by decide)
        (show comboFib.getD 25 0 = RET by decide)).trans
      (doRet3_halt_eq (show (1:Nat) ≤ 5 by omega)
        (show m' (1 + 2) ≤ 1 by rw [hP _ (by omega)]; simp [wr])
        (show m' (1 + 1) = 0 by rw [hP _ (by omega)]; simp [wr]))
  exact executes_of_reaches hR (hV' ▸ executes_halt hfinal)

/-! ## Concrete values of the machine fib function -/

theorem fibW_vals :
    fibW 0 = 1 ∧ fibW 1 = 1 ∧ fibW 2 = 2 ∧ fibW 3 = 3 ∧ fibW 4 = 5 ∧ fibW 5 = 8 ∧
    fibW 10 = 89 ∧ fibW 20 = 10946 := by
  have h9 : fibW 9 = 55 := by decide
  have h10 : fibW 10 = 89 := by decide
  have h11 : fibW 11 = 144 := by
    rw [fibW_rec (by decide), show wrap (sVal 11 - 1) = 10 by decide,
      show wrap (sVal 11 - 2) = 9 by decide, h10, h9]
    decide
  have h12 : fibW 12 = 233 := by
    rw [fibW_rec (by decide), show wrap (sVal 12 - 1) = 11 by decide,
      show wrap (sVal 12 - 2) = 10 by decide, h11, h10]
    decide
  have h13 : fibW 13 = 377 := by
    rw [fibW_rec (by decide), show wrap (sVal 13 - 1) = 12 by decide,
      show wrap (sVal 13 - 2) = 11 by decide, h12, h11]
    decide
  have h14 : fibW 14 = 610 := by
    rw [fibW_rec (by decide), show wrap (sVal 14 - 1) = 13 by decide,
      show wrap (sVal 14 - 2) = 12 by decide, h13, h12]
    decide
  have h15 : fibW 15 = 987 := by
    rw [fibW_rec (by decide), show wrap (sVal 15 - 1) = 14 by decide,
      show wrap (sVal 15 - 2) = 13 by decide, h14, h13]
    decide
  have h16 : fibW 16 = 1597 := by
    rw [fibW_rec (by decide), show wrap (sVal 16 - 1) = 15 by decide,
      show wrap (sVal 16 - 2) = 14 by decide, h15, h14]
    decide
  have h17 : fibW 17 = 2584 := by
    rw [fibW_rec (by decide), show wrap (sVal 17 - 1) = 16 by decide,
      show wrap (sVal 17 - 2) = 15 by decide, h16, h15]
    decide
  have h18 : fibW 18 = 4181 := by
    rw [fibW_rec (by decide), show wrap (sVal 18 - 1) = 17 by decide,
      show wrap (sVal 18 - 2) = 16 by decide, h17, h16]
    decide
  have h19 : fibW 19 = 6765 := by
    rw [fibW_rec (by decide), show wrap (sVal 19 - 1) = 18 by decide,
      show wrap (sVal 19 - 2) = 17 by decide, h18, h17]
    decide
  have h20 : fibW 20 = 10946 := by
    rw [fibW_rec (by decide), show wrap (sVal 20 - 1) = 19 by decide,
      show wrap (sVal 20 - 2) = 18 by decide, h19, h18]
    decide
  exact ⟨by decide, by decide, by decide, by decide, by decide, by decide, h10, h20⟩

/-! ## Stack depth of the interpreted recursion, `wordcode.c`

One recursion step of the `fib` body (up to and including the first CALL)
grows the frame base by 3; iterating it drives `sp` as deep as the argument
allows — in particular past `STACK_SIZE`, since nothing checks. -/

theorem wc_descend (b A : Nat) (m : Nat → Nat) (hA : m (b + 2) = A)
    (h2 : 2 ≤ A) (hlt : A < TWO63) :
    ∃ m', Reaches (stepWC wcFib) ⟨0, b + 3, b, m⟩ ⟨0, b + 6, b + 3, m'⟩ ∧
      m' (b + 5) = A - 1 := by
  subst hA
  have hsv : sVal (m (b + 2)) = ((m (b + 2) : Nat) : Int) := sVal_small hlt
  have hb : ¬ sVal (m (b + 2)) < 2 := by rw [hsv]; omega
  have hb2 : 2 ≤ sVal (m (b + 2)) := not_lt.1 hb
  obtain ⟨m1, s1, v1, f1⟩ :
      ∃ mm, stepWC wcFib ⟨0, b + 3, b, m⟩ = .next ⟨2, b + 4, b, mm⟩ ∧
        mm (b + 3) = m (b + 2) ∧ ∀ x, x < b + 3 → mm x = m x :=
    ⟨_, (stepWC_load (show (0:Nat) < wcFib.length by decide)
          (show wcFib.getD 0 0 = LOAD by decide)).trans
        (wcLoad_eq (show (1:Nat) < wcFib.length by decide)
          (show wcFib.getD 1 0 = 0 by decide)),
      by simp [wr], fun x hx => by simp [wr, show x ≠ b + 3 from by omega]⟩
  obtain ⟨m2, s2, v2a, v2b, f2⟩ :
      ∃ mm, stepWC wcFib ⟨2, b + 4, b, m1⟩ = .next ⟨4, b + 5, b, mm⟩ ∧
        mm (b + 3) = m (b + 2) ∧ mm (b + 4) = 2 ∧ ∀ x, x < b + 3 → mm x = m x :=
    ⟨_, (stepWC_lit (show (2:Nat) < wcFib.length by decide)
          (show wcFib.getD 2 0 = LIT by decide)).trans
        (doLit_eq (show (3:Nat) < wcFib.length by decide)
          (show wcFib.getD 3 0 = 0 by decide) (by decide)),
      by simp [wr]; exact v1, by simp [wr, literals],
      fun x hx => by simp [wr, show x ≠ b + 4 from by omega, f1 x hx]⟩
  obtain ⟨m3, s3, v3, f3⟩ :
      ∃ mm, stepWC wcFib ⟨4, b + 5, b, m2⟩ = .next ⟨6, b + 4, b, mm⟩ ∧
        mm (b + 3) = (if sVal (m (b + 2)) < 2 then 1 else 0) ∧
        ∀ x, x < b + 3 → mm x = m x :=
    ⟨_, (stepWC_prim (show (4:Nat) < wcFib.length by decide)
          (show wcFib.getD 4 0 = PRIM by decide)).trans
        (doPrim_eq (show (5:Nat) < wcFib.length by decide)
          (show wcFib.getD 5 0 = 0 by decide) (by decide) (show (2:Nat) ≤ b + 5 by omega)),
      by simp [wr]; rw [v2a, v2b]; simp [primResult, sVal_two],
      fun x hx => by simp [wr, show x ≠ b + 3 from by omega, f2 x hx]⟩
  have hv3 : m3 (b + 3) = 0 := by rw [v3, if_neg hb]
  have s4 : stepWC wcFib ⟨6, b + 4, b, m3⟩ = .next ⟨8, b + 3, b, m3⟩ :=
    (stepWC_jt (show (6:Nat) < wcFib.length by decide)
        (show wcFib.getD 6 0 = JT by decide)).trans
      (doJt_false_eq (show (7:Nat) < wcFib.length by decide)
        (show (1:Nat) ≤ b + 4 by omega) (show m3 (b + 3) = 0 from hv3))
  obtain ⟨m4, s5, v4, f4⟩ :
      ∃ mm, stepWC wcFib ⟨8, b + 3, b, m3⟩ = .next ⟨10, b + 4, b, mm⟩ ∧
        mm (b + 3) = m (b + 2) ∧ ∀ x, x < b + 3 → mm x = m x :=
    ⟨_, (stepWC_load (show (8:Nat) < wcFib.length by decide)
          (show wcFib.getD 8 0 = LOAD by decide)).trans
        (wcLoad_eq (show (9:Nat) < wcFib.length by decide)
          (show wcFib.getD 9 0 = 0 by decide)),
      by simp [wr]; exact f3 _ (by omega),
      fun x hx => by simp [wr, show x ≠ b + 3 from by omega, f3 x hx]⟩
  obtain ⟨m5, s6, v5a, v5b, f5⟩ :
      ∃ mm, stepWC wcFib ⟨10, b + 4, b, m4⟩ = .next ⟨12, b + 5, b, mm⟩ ∧
        mm (b + 3) = m (b + 2) ∧ mm (b + 4) = 1 ∧ ∀ x, x < b + 3 → mm x = m x :=
    ⟨_, (stepWC_lit (show (10:Nat) < wcFib.length by decide)
          (show wcFib.getD 10 0 = LIT by decide)).trans
        (doLit_eq (show (11:Nat) < wcFib.length by decide)
          (show wcFib.getD 11 0 = 1 by decide) (by decide)),
      by simp [wr]; exact v4, by simp [wr, literals],
      fun x hx => by simp [wr, show x ≠ b + 4 from by omega, f4 x hx]⟩
  obtain ⟨m6, s7, v6, f6⟩ :
      ∃ mm, stepWC wcFib ⟨12, b + 5, b, m5⟩ = .next ⟨14, b + 4, b, mm⟩ ∧
        mm (b + 3) = wrap (sVal (m (b + 2)) - 1) ∧ ∀ x, x < b + 3 → mm x = m x :=
    ⟨_, (stepWC_prim (show (12:Nat) < wcFib.length by decide)
          (show wcFib.getD 12 0 = PRIM by decide)).trans
        (doPrim_eq (show (13:Nat) < wcFib.length by decide)
          (show wcFib.getD 13 0 = 1 by decide) (by decide)
          (show (2:Nat) ≤ b + 5 by omega)),
      by simp [wr]; rw [v5a, v5b]; simp [primResult, sVal_one],
      fun x hx => by simp [wr, show x ≠ b + 3 from by omega, f5 x hx]⟩
  obtain ⟨m7, s8, v7a, f7⟩ :
      ∃ mm, stepWC wcFib ⟨14, b + 4, b, m6⟩ = .next ⟨0, b + 6, b + 3, mm⟩ ∧
        mm (b + 5) = wrap (sVal (m (b + 2)) - 1) ∧ ∀ x, x < b + 3 → mm x = m x :=
    ⟨_, (stepWC_call (show (14:Nat) < wcFib.length by decide)
          (show wcFib.getD 14 0 = CALL by decide)).trans
        (wcCall_eq (show (15:Nat) < wcFib.length by decide)
          (show wcFib.getD 15 0 = 0 by decide) (show (1:Nat) ≤ b + 4 by omega)),
      by simp [wr]; exact v6,
      fun x hx => by
        simp [wr, show x ≠ b + 3 from by omega, show x ≠ b + 4 from by omega,
          show x ≠ b + 5 from by omega, f6 x hx]⟩
  have w1eq : wrap (sVal (m (b + 2)) - 1) = m (b + 2) - 1 := by
    rw [wrap_sval_sub_one hb2, Nat.mod_eq_of_lt (lt_trans hlt two63_lt_two64)]
  exact ⟨m7, reaches_head s1 (reaches_head s2 (reaches_head s3 (reaches_head s4
    (reaches_head s5 (reaches_head s6 (reaches_head s7 (reaches_head s8
      (reaches_rfl _ _)))))))), by rw [v7a, w1eq]⟩

theorem wc_descend_iter : ∀ j b A m, m (b + 2) = A → 2 + j ≤ A → A < TWO63 →
    ∃ m', Reaches (stepWC wcFib) ⟨0, b + 3, b, m⟩ ⟨0, b + 3 * j + 3, b + 3 * j, m'⟩ ∧
      m' (b + 3 * j + 2) = A - j := by
  intro j
  induction j with
  | zero =>
    intro b A m hA h2 hlt
    exact ⟨m, reaches_rfl _ _, by simpa using hA⟩
  | succ j ihj =>
    intro b A m hA h2 hlt
    obtain ⟨m1, hD, hv⟩ := wc_descend b A m hA (by omega) hlt
    obtain ⟨m', hR, hv'⟩ := ihj (b + 3) (A - 1) m1 (show m1 (b + 3 + 2) = A - 1 from hv)
      (by omega) (by omega)
    have e : b + 3 + 3 * j = b + 3 * (j + 1) := by ring
    refine ⟨m', reaches_trans hD ?_, ?_⟩
    · rw [← e]; exact hR
    · rw [← e, show A - (j + 1) = A - 1 - j from by omega]; exact hv'

/-! ## The claims -/

/-- C1: cross-strategy agreement.  The sources fix the program to the
built-in `fib` bytecode (each `execute` runs a static code array, there is
no program parameter), so the quantification over well-formed Programs
instantiates to it; for every argument word and every prior content of the
process-wide stack array, the decode-and-branch interpreter (`wordcode.c`),
the handler-chained interpreter (`handlercode2.c`) and the direct-threaded
interpreter (`directthreaded3.c`) all terminate normally with one and the
same result word (no run aborts or runs into undefined behavior, so the
failure classifications agree as well). -/
theorem C1_cross_strategy_agreement (n : Nat) (m : Nat → Nat) :
    ∃ w, Executes (stepWC wcFib) (wcInit n m) w ∧
      Executes (stepHC2 hc2Fib) (hc2Init n m) w ∧
      Executes (stepDT dt3Fib) (dtInit n m) w :=
  ⟨fibW n, wc_exec_fib n m, hc2_exec_fib n m, dt3_exec_fib n m⟩

/-- C2: the built-in sample Program implements
`f(n) = 1 if n < 2 else f(n-1) + f(n-2)` in the machine's two's-complement
64-bit signed arithmetic: `fibW` satisfies exactly that recursion (base and
recursive equations below), `execute` of `wordcode.c` yields `fibW n` for
every argument, and the literal conformance values hold:
f(0)=1, f(1)=1, f(2)=2, f(3)=3, f(4)=5, f(5)=8, f(10)=89, f(20)=10946. -/
theorem C2_reference_program :
    (∀ n m, Executes (stepWC wcFib) (wcInit n m) (fibW n)) ∧
    (∀ n, sVal n < 2 → fibW n = 1) ∧
    (∀ n, 2 ≤ sVal n →
      fibW n = wrap (sVal (fibW (wrap (sVal n - 1))) + sVal (fibW (wrap (sVal n - 2))))) ∧
    fibW 0 = 1 ∧ fibW 1 = 1 ∧ fibW 2 = 2 ∧ fibW 3 = 3 ∧ fibW 4 = 5 ∧ fibW 5 = 8 ∧
    fibW 10 = 89 ∧ fibW 20 = 10946 :=
  ⟨wc_exec_fib, fun _ h => fibW_base h, fun _ h => fibW_rec h,
    fibW_vals.1, fibW_vals.2.1, fibW_vals.2.2.1, fibW_vals.2.2.2.1, fibW_vals.2.2.2.2.1,
    fibW_vals.2.2.2.2.2.1, fibW_vals.2.2.2.2.2.2.1, fibW_vals.2.2.2.2.2.2.2⟩

/-- C2 witness: the base and recursive equations are witnessed at the
concrete arguments 0 and 5. -/
theorem C2_reference_program_witness :
    sVal 0 < 2 ∧ fibW 0 = 1 ∧ 2 ≤ sVal 5 ∧
      fibW 5 = wrap (sVal (fibW (wrap (sVal 5 - 1))) + sVal (fibW (wrap (sVal 5 - 2)))) :=
  ⟨by decide, C2_reference_program.2.1 0 (by decide), by decide,
    C2_reference_program.2.2.1 5 (by decide)⟩

/-- C3: fusion transparency.  The source has no program-parametric `fuse`
function (`comboinstructions.c` only ships the already fused program), so
the pass is modelled from spec §4.4 as the data-driven peephole rewriting
`fuse` with jump-offset recomputation.  On the repository's program: the
unfused interpreter of `directthreaded4.c` and the fused interpreter of
`comboinstructions.c` return the same result for every argument word and
prior stack content; `fuse` maps the unfused `fib` code to exactly the fused
code of `comboinstructions.c` (the SUB1 combo replacing `CONST_1; PRIM
subtract` and `SUB1; SUB1` replacing `CONST_2; PRIM subtract`, with the JT
and JMP offsets recomputed); and `fuse` is idempotent on it. -/
theorem C3_fusion_transparent :
    (∀ n m, ∃ w, Executes (stepDT dt4Fib) (dtInit n m) w ∧
      Executes (stepDT comboFib) (dtInit n m) w) ∧
    fuse dt4Fib = comboFib ∧ fuse (fuse dt4Fib) = fuse dt4Fib :=
  ⟨fun n m => ⟨fibW n, dt4_exec_fib n m, combo_exec_fib n m⟩, by decide, by decide⟩

/-- C4: frame discipline in `directthreaded3.c`.  From any state about to
execute a `CALL 0 1` of the `fib` code with the argument on top of the
stack, execution reaches (through the matching RET of the callee, however
deep the recursion goes) the state whose `ip` is the continuation directly
after the CALL (the value saved by the CALL — the registers are restored to
their pre-call values), whose `bp` is exactly the pre-call `bp`, whose `sp`
is exactly the pre-call `sp` (one argument word discarded, one result word
pushed), and whose stack below `sp - 1` is untouched: no residual callee
locals or temporaries remain. -/
theorem C4_frame_discipline (ip0 sp bp : Nat) (m : Nat → Nat)
    (hc : dt3Fib.getD ip0 0 = CALL) (hlen : ip0 + 2 < dt3Fib.length)
    (h0 : dt3Fib.getD (ip0 + 1) 0 = 0) (h1 : dt3Fib.getD (ip0 + 2) 0 = 1)
    (hsp : 1 ≤ sp) :
    ∃ m', Reaches (stepDT dt3Fib) ⟨ip0, sp, bp, m⟩ ⟨ip0 + 3, sp, bp, m'⟩ ∧
      m' (sp - 1) = fibW (m (sp - 1)) ∧ ∀ x, x < sp - 1 → m' x = m x := by
  obtain ⟨b, rfl⟩ : ∃ b, sp = b + 1 := ⟨sp - 1, by omega⟩
  have sc : stepDT dt3Fib ⟨ip0, b + 1, bp, m⟩ =
      .next ⟨0, b + 4, b + 1,
        wr (wr (wr m (b + 1) bp) (b + 2) (ipStore (ip0 + 3))) (b + 3) 1⟩ :=
    (stepDT_call (show ip0 < dt3Fib.length by omega) hc).trans (dtCall_eq hlen h0 h1)
  obtain ⟨mk, hR, hV, hP⟩ := dt3_body (m b % TWO64 + 1) (m b) b
    (wr (wr (wr m (b + 1) bp) (b + 2) (ipStore (ip0 + 3))) (b + 3) 1)
    (Nat.lt_succ_self _) (by simp [wr])
  have sr : stepDT dt3Fib ⟨32, b + 5, b + 1, mk⟩ =
      .next ⟨ip0 + 3, b + 1, bp, wr mk b (mk (b + 4))⟩ :=
    (stepDT_ret (show (32:Nat) < dt3Fib.length by decide)
        (show dt3Fib.getD 32 0 = RET by decide)).trans
      (doRet3_next_eq (show (1:Nat) ≤ b + 5 by omega)
        (show mk (b + 3) = 1 by rw [hP _ (by omega)]; simp [wr])
        (show (1:Nat) ≤ b + 1 by omega)
        (show mk (b + 2) = (ip0 + 3) + 1 by rw [hP _ (by omega)]; simp [wr, ipStore])
        (show mk (b + 1) = bp by rw [hP _ (by omega)]; simp [wr]))
  refine ⟨wr mk b (mk (b + 4)),
    reaches_head sc (reaches_trans hR (reaches_head sr (reaches_rfl _ _))), ?_, ?_⟩
  · simp only [Nat.add_sub_cancel]
    simp [wr]
    exact hV
  · intro x hx
    have hxb : x < b := by omega
    simp [wr, show x ≠ b from by omega]
    rw [hP _ (by omega)]
    simp [wr, show x ≠ b + 1 from by omega, show x ≠ b + 2 from by omega,
      show x ≠ b + 3 from by omega]

/-- C4 witness: the CALL at index 14 of the `directthreaded3.c` code, from
a concrete state with one argument word on the stack. -/
theorem C4_frame_discipline_witness :
    dt3Fib.getD 14 0 = CALL ∧ (14 : Nat) + 2 < dt3Fib.length ∧
    ∃ m', Reaches (stepDT dt3Fib) ⟨14, 1, 5, fun _ => 0⟩ ⟨17, 1, 5, m'⟩ ∧
      m' 0 = fibW 0 ∧ ∀ x, x < 0 → m' x = 0 :=
  ⟨by decide, by decide,
    C4_frame_discipline 14 1 5 (fun _ => 0) (by decide) (by decide) (by decide)
      (by decide) (by decide)⟩

/-- C5: the jump encoding of `wordcode.c`.  For a JMP, and for a JT whose
popped condition is non-zero, the new instruction pointer is
`ip_start + offset` — the offset counts from the start of the instruction —
which is exactly what the handler's `ip_after_operand + offset - 2`
computes; a falsy JT still pops the condition and falls through to
`ip_start + 2`. -/
theorem C5_jump_offset_encoding :
    (∀ (code : List Nat) (s : St) (o t : Nat), s.ip < code.length → code.getD s.ip 0 = JMP →
      s.ip + 1 < code.length → code.getD (s.ip + 1) 0 = o →
      (s.ip : Int) + sVal o = (t : Int) →
      stepWC code s = .next ⟨t, s.sp, s.bp, s.mem⟩) ∧
    (∀ (code : List Nat) (s : St) (o t : Nat), s.ip < code.length → code.getD s.ip 0 = JT →
      s.ip + 1 < code.length → code.getD (s.ip + 1) 0 = o → 1 ≤ s.sp →
      s.mem (s.sp - 1) ≠ 0 → (s.ip : Int) + sVal o = (t : Int) →
      stepWC code s = .next ⟨t, s.sp - 1, s.bp, s.mem⟩) ∧
    (∀ code s, s.ip < code.length → code.getD s.ip 0 = JT →
      s.ip + 1 < code.length → 1 ≤ s.sp → s.mem (s.sp - 1) = 0 →
      stepWC code s = .next ⟨s.ip + 2, s.sp - 1, s.bp, s.mem⟩) := by
  refine ⟨?_, ?_, ?_⟩
  · intro code s o t hlen hop hlen1 harg ht
    exact (stepWC_jmp hlen hop).trans (doJmp_eq hlen1 harg (by rw [← ht]; ring))
  · intro code s o t hlen hop hlen1 harg hsp hc ht
    exact (stepWC_jt hlen hop).trans (doJt_true_eq hlen1 hsp harg hc (by rw [← ht]; ring))
  · intro code s hlen hop hlen1 hsp hc
    exact (stepWC_jt hlen hop).trans (doJt_false_eq hlen1 hsp hc)

/-- C5 witness: a concrete JMP, a concrete taken JT and a concrete fallen-
through JT. -/
theorem C5_jump_offset_encoding_witness :
    stepWC [JMP, 3] ⟨0, 0, 0, fun _ => 0⟩ = .next ⟨3, 0, 0, fun _ => 0⟩ ∧
    stepWC [JT, 5] ⟨0, 1, 0, wr (fun _ => 0) 0 1⟩ = .next ⟨5, 0, 0, wr (fun _ => 0) 0 1⟩ ∧
    stepWC [JT, 5] ⟨0, 1, 0, fun _ => 0⟩ = .next ⟨2, 0, 0, fun _ => 0⟩ :=
  ⟨C5_jump_offset_encoding.1 [JMP, 3] ⟨0, 0, 0, fun _ => 0⟩ 3 3 (by decide) (by decide)
      (by decide) (by decide) (by decide),
    C5_jump_offset_encoding.2.1 [JT, 5] ⟨0, 1, 0, wr (fun _ => 0) 0 1⟩ 5 5 (by decide)
      (by decide) (by decide) (by decide) (by decide) (by decide) (by decide),
    C5_jump_offset_encoding.2.2 [JT, 5] ⟨0, 1, 0, fun _ => 0⟩ (by decide) (by decide)
      (by decide) (by decide) (by decide)⟩

/-- C6 counterexample: the claim cites `wordcode.c`'s `push_frame` as
storing three control words, but it stores exactly two (old bp, old ip; no
argument count): at a concrete state its frame push advances `sp` by 2, not
by 3. -/
theorem C6_frame_words_cx :
    (wc_push_frame ⟨0, 0, 0, fun _ => 0⟩).sp = 2 ∧
    (wc_push_frame ⟨0, 0, 0, fun _ => 0⟩).sp ≠ 3 :=
  ⟨rfl, by decide⟩

/-- C6 (amended): in `handlercode2.c` and the direct-threaded variants,
frame push stores exactly three control words (old bp at the new bp, then
old ip, then the argument count) and advances `sp` by 3 touching nothing
else; frame pop first resets `sp` to `bp + 3`, consumes exactly those three
words and discards the recorded `argc` argument words — its result depends
on `sp` only through the already-popped return value, so RET is uniform in
how many locals or temporaries the body pushed.  In `wordcode.c` the frame
is two control words only (old bp, old ip): all functions there have
arity 1 and the CALL handler re-pushes the single popped argument. -/
theorem C6_frame_words :
    (∀ argc s,
      (push_frame3 argc s).sp = s.sp + 3 ∧ (push_frame3 argc s).bp = s.sp ∧
      (push_frame3 argc s).mem s.sp = s.bp ∧
      (push_frame3 argc s).mem (s.sp + 1) = ipStore s.ip ∧
      (push_frame3 argc s).mem (s.sp + 2) = argc ∧
      ∀ x, x ≠ s.sp → x ≠ s.sp + 1 → x ≠ s.sp + 2 →
        (push_frame3 argc s).mem x = s.mem x) ∧
    (∀ s a i p, 1 ≤ s.sp → s.mem (s.bp + 2) = a → a ≤ s.bp →
      s.mem (s.bp + 1) = i + 1 → s.mem s.bp = p →
      doRet3 s = .next ⟨i, (s.bp - a) + 1, p, wr s.mem (s.bp - a) (s.mem (s.sp - 1))⟩) ∧
    (∀ s, (wc_push_frame s).sp = s.sp + 2 ∧ (wc_push_frame s).bp = s.sp ∧
      (wc_push_frame s).mem s.sp = s.bp ∧ (wc_push_frame s).mem (s.sp + 1) = ipStore s.ip) := by
  refine ⟨fun argc s => ⟨rfl, rfl, ?_, ?_, ?_, ?_⟩,
    fun s a i p h1 h2 h3 h4 h5 => doRet3_next_eq h1 h2 h3 h4 h5,
    fun s => ⟨rfl, rfl, ?_, ?_⟩⟩
  · simp [push_frame3, push, wr]
    try omega
  · simp [push_frame3, push, wr]
    try omega
  · simp [push_frame3, push, wr]
    try omega
  · intro x hx1 hx2 hx3
    simp [push_frame3, push, wr, hx1, hx2, hx3]
    try omega
  · simp [wc_push_frame, push, wr]
    try omega
  · simp [wc_push_frame, push, wr]
    try omega

/-- C6 witness: the three-word frame pop at a concrete state. -/
theorem C6_frame_words_witness :
    doRet3 ⟨0, 4, 1, wr (wr (wr (fun _ => 0) 3 1) 2 8) 1 9⟩ =
      .next ⟨7, 1, 9, wr (wr (wr (wr (fun _ => 0) 3 1) 2 8) 1 9) 0
        (wr (wr (wr (fun _ => 0) 3 1) 2 8) 1 9 3)⟩ :=
  C6_frame_words.2.1 ⟨0, 4, 1, wr (wr (wr (fun _ => 0) 3 1) 2 8) 1 9⟩ 1 7 9
    (by decide) (by decide) (by decide) (by decide) (by decide)

/-- C7 counterexample: the claim states that an out-of-range PRIM id yields
the MalformedProgram process abort, but `wordcode.c` only aborts in the
`default:` branch of the opcode switch; `prim_handlers[3]` is an unchecked
out-of-bounds read (undefined behavior), not the abort. -/
theorem C7_malformed_cx :
    stepWC [PRIM, 3] ⟨0, 0, 0, fun _ => 0⟩ = .ub ∧
    stepWC [PRIM, 3] ⟨0, 0, 0, fun _ => 0⟩ ≠ .abort :=
  ⟨rfl, fun h => Out.noConfusion h⟩

/-- C7 (amended): executing an opcode tag outside the known set 0..6 hits
the switch's `default:` branch and aborts the process (the distinct
MalformedProgram failure); but a PRIM, CALL or LIT id outside the
primitive, function or literal table is not checked — it is an out-of-bounds
access, i.e. undefined behavior, not a detected failure distinct from it. -/
theorem C7_malformed :
    (∀ code s t, s.ip < code.length → code.getD s.ip 0 = t → RET < t →
      stepWC code s = .abort) ∧
    stepWC [PRIM, 3] ⟨0, 0, 0, fun _ => 0⟩ = .ub ∧
    stepWC [LIT, 2] ⟨0, 0, 0, fun _ => 0⟩ = .ub ∧
    stepWC [CALL, 1] ⟨0, 0, 0, fun _ => 0⟩ = .ub ∧
    Out.ub ≠ Out.abort := by
  refine ⟨?_, rfl, rfl, rfl, fun h => Out.noConfusion h⟩
  intro code s t hlen hop ht
  have ht' : 6 < t := ht
  simp only [stepWC, hop]
  rw [if_neg (Nat.not_le.2 hlen), if_neg (show ¬ t = LIT by simp [LIT]; omega),
    if_neg (show ¬ t = LOAD by simp [LOAD]; omega),
    if_neg (show ¬ t = CALL by simp [CALL]; omega),
    if_neg (show ¬ t = PRIM by simp [PRIM]; omega),
    if_neg (show ¬ t = JT by simp [JT]; omega),
    if_neg (show ¬ t = JMP by simp [JMP]; omega),
    if_neg (show ¬ t = RET by simp [RET]; omega)]

/-- C7 witness: the invalid opcode tag 9 aborts. -/
theorem C7_malformed_witness :
    stepWC [9] ⟨0, 0, 0, fun _ => 0⟩ = .abort :=
  C7_malformed.1 [9] ⟨0, 0, 0, fun _ => 0⟩ 9 (by decide) (by decide) (by decide)

/-- C8: the stack is not bounds checked.  `push` unconditionally writes at
`sp` and increments it, with no comparison against `STACK_SIZE`; driving the
interpreted recursion of `wordcode.c` deep enough (argument 3000) reaches a
state whose `sp` exceeds `STACK_SIZE = 1024`, at which the very next
instruction still pushes (writes past the array's capacity) and the whole
execution still terminates normally — no StackOverflow is ever detected or
reported. -/
theorem C8_unchecked_stack :
    (∀ v s, (push v s).sp = s.sp + 1 ∧ (push v s).mem s.sp = v) ∧
    (∃ s s', Reaches (stepWC wcFib) (wcInit 3000 (fun _ => 0)) s ∧
      STACK_SIZE < s.sp ∧ stepWC wcFib s = .next s' ∧ s'.sp = s.sp + 1) ∧
    (∃ w, Executes (stepWC wcFib) (wcInit 3000 (fun _ => 0)) w) := by
  refine ⟨fun v s => ⟨rfl, by simp [push, wr]⟩, ?_,
    ⟨fibW 3000, wc_exec_fib 3000 (fun _ => 0)⟩⟩
  obtain ⟨m', hR, hv⟩ := wc_descend_iter 400 0 3000
    (wr (wr (wr (fun _ => 0) 0 0) 1 0) 2 3000) (by simp [wr]) (by omega) (by decide)
  have hs : stepWC wcFib ⟨0, 0 + 3 * 400 + 3, 0 + 3 * 400, m'⟩ =
      .next ⟨2, 0 + 3 * 400 + 3 + 1, 0 + 3 * 400,
        wr m' (0 + 3 * 400 + 3) (m' (0 + 3 * 400 + 2))⟩ :=
    (stepWC_load (show (0:Nat) < wcFib.length by decide)
        (show wcFib.getD 0 0 = LOAD by decide)).trans
      (wcLoad_eq (show (1:Nat) < wcFib.length by decide)
        (show wcFib.getD 1 0 = 0 by decide))
  exact ⟨⟨0, 0 + 3 * 400 + 3, 0 + 3 * 400, m'⟩,
    ⟨2, 0 + 3 * 400 + 3 + 1, 0 + 3 * 400, wr m' (0 + 3 * 400 + 3) (m' (0 + 3 * 400 + 2))⟩,
    hR, show STACK_SIZE < 0 + 3 * 400 + 3 by decide, hs, rfl⟩

/-- C9: `execute` is pure and deterministic (modelled on
`directthreaded2.c`, whose embedding coincides with `handlercode2.c`): for
the same argument, two invocations starting from any two contents of the
process-wide stack array — in particular, whatever residue an earlier,
independent `execute` call left there — produce one and the same result;
and the run function is deterministic: any two terminating runs from the
same state agree. -/
theorem C9_execute_pure :
    (∀ n m₁ m₂, ∃ w, Executes (stepHC2 hc2Fib) (hc2Init n m₁) w ∧
      Executes (stepHC2 hc2Fib) (hc2Init n m₂) w) ∧
    (∀ s w₁ w₂, Executes (stepHC2 hc2Fib) s w₁ → Executes (stepHC2 hc2Fib) s w₂ →
      w₁ = w₂) :=
  ⟨fun n m₁ m₂ => ⟨fibW n, hc2_exec_fib n m₁, hc2_exec_fib n m₂⟩,
    fun _ _ _ h1 h2 => executes_unique h1 h2⟩

/-- C9 witness: determinism applied to the concrete six-instruction run of
the program on argument 0, which yields 1. -/
theorem C9_execute_pure_witness : (1 : Nat) = 1 :=
  C9_execute_pure.2 (hc2Init 0 (fun _ => 0)) 1 1 ⟨6, rfl⟩ ⟨6, rfl⟩

/-- C10: for every argument word (all 64-bit values, in particular all
words whose signed reading is negative, which take the base case at once)
and every prior stack content, the dispatch loop of `wordcode.c` terminates
by reaching the outermost RET and yielding a result. -/
theorem C10_fib_terminates (n : Nat) (m : Nat → Nat) :
    ∃ w, Executes (stepWC wcFib) (wcInit n m) w :=
  ⟨fibW n, wc_exec_fib n m⟩

end Interp
